import Mathlib

/-!
# Boundary vector assembly with level-set adapted quadrature

A shallow embedding of `IntegrateVectorFaceIDLSAdapted`
(`lifev/eta/expression/IntegrateVectorFaceIDLSAdapted.hpp`): the driver object, its two
constructors and `addTo`, as explicit state passing.  Scalars live in an arbitrary
semiring `R` (exact arithmetic).  Accesses that are undefined behaviour in C++ (an index
past the end of a `std::vector`, a dereference of a null or foreign pointer) return a
`Fault`.

The collaborator classes (`LevelSetBDQRAdapter`, `ETCurrentBDFE`, `ETCurrentFE`,
`ETVectorElemental`, the evaluation tree) are not part of the sources; each is modelled
from its contract in the specification and marked as such.  The declaration of `UInt`
(`lifev/core/LifeV.hpp`) is not among the sources either.  A `UInt` is a natural number
here; counters and local indices are bounded by the size of the buffer they address, and
the one computation that is not, the global row of line 448, is reduced modulo `2 ^ 32`
(`wrapUInt`).
-/

namespace LifeV

/-- Ways an execution can go wrong. -/
inductive Fault where
  /-- `ASSERT (vec != 0, ...)` failed -/
  | emptyVector
  /-- an index past the end of an array -/
  | outOfRange
  /-- a dereference of a pointer that is null or designates none of the driver's evaluators -/
  | unbound
  deriving DecidableEq, Repr

/-- Modelled from the spec: the declaration of `UInt` (`lifev/core/LifeV.hpp`) is absent from the
sources; the global indices the specification speaks of are held in it, and it is taken as
the 32-bit unsigned integer: a result that reaches `2 ^ 32` wraps around. -/
def wrapUInt (n : Nat) : Nat :=
  n % 2 ^ 32

/-- A counted loop `for (UInt i (0); i < n; ++i) body`, threading the state and stopping at
the first fault. -/
def forLoop {σ : Type} (n : Nat) (body : Nat → σ → Except Fault σ) (init : σ) :
    Except Fault σ :=
  match n with
  | 0 => .ok init
  | k + 1 => (forLoop k body init).bind (body k)

/-- Unchecked `operator[]` of a `std::vector`, followed by an in-place change of the entry. -/
def modifyAt {α : Type} (xs : List α) (i : Nat) (f : α → α) : Except Fault (List α) :=
  match xs[i]? with
  | some a => .ok (xs.set i (f a))
  | none => .error .outOfRange

/-- Unchecked read `xs[i]` of a `std::vector`. -/
def readAt {α : Type} (xs : List α) (i : Nat) : Except Fault α :=
  match xs[i]? with
  | some a => .ok a
  | none => .error .outOfRange

/-! ## External collaborators -/

/-- Modelled from the spec: a quadrature rule (`QuadratureRule`, absent) is an ordered set of
(reference-coordinate, weight) pairs. -/
structure QuadratureRule (R : Type) where
  points : List ((R × R × R) × R)

/-- Number of quadrature points of a rule. -/
def QuadratureRule.nbQuadPt {R : Type} (qr : QuadratureRule R) : Nat :=
  qr.points.length

/-- A boundary face as `addTo` sees it: marker tag, local position in the adjacent element,
identity of the adjacent element. -/
structure Face where
  markerID : Nat
  firstAdjacentElementPosition : Nat
  firstAdjacentElementIdentity : Nat
  deriving DecidableEq, Repr

/-- The mesh as `addTo` sees it: the boundary faces `face (0) .. face (numBFaces - 1)` in
storage order. -/
structure Mesh where
  bFaces : List Face
  deriving DecidableEq, Repr

/-- The `numBFaces()` query. -/
def Mesh.numBFaces (m : Mesh) : Nat :=
  m.bFaces.length

/-- The `face (i)` query. -/
def Mesh.face (m : Mesh) (i : Nat) : Except Fault Face :=
  readAt m.bFaces i

/-- The test space as `addTo` sees it: `field_dim`, `refFE().nbDof()`,
`dof().numTotalDof()` and `dof().localToGlobalMap (element, i)`. -/
structure TestSpace where
  field_dim : Nat
  nbDof : Nat
  numTotalDof : Nat
  localToGlobalMap : Nat → Nat → Nat

/-- Modelled from the spec: `LevelSetBDQRAdapter` (absent).  `adapt e f i` is the rule for slot
`i` that the level-set split of element `e`, face `f` produces; `M_adaptedQrBd` is the
per-slot cache that the last `update` left. -/
structure LevelSetBDQRAdapter (R : Type) where
  adapt : Nat → Nat → Nat → QuadratureRule R
  M_adaptedQrBd : Nat → QuadratureRule R

/-- The call `M_qrAdapter.update (elementID, localFaceID)`. -/
def LevelSetBDQRAdapter.update {R : Type} (A : LevelSetBDQRAdapter R) (elementID localFaceID : Nat) :
    LevelSetBDQRAdapter R :=
  { A with M_adaptedQrBd := A.adapt elementID localFaceID }

/-- The call `M_qrAdapter.adaptedBdQR (i)`. -/
def LevelSetBDQRAdapter.adaptedBdQR {R : Type} (A : LevelSetBDQRAdapter R) (i : Nat) :
    QuadratureRule R :=
  A.M_adaptedQrBd i

/-- Modelled from the spec: the geometric computation of `ETCurrentBDFE::update` (absent), a pure
function of (reference tangents, current rule, element): the measure-weighted weight of
quadrature point `q`. -/
structure GeometricMap (R : Type) where
  wMeas : List (List Int) → QuadratureRule R → Nat → Nat → R

/-- Modelled from the spec: `ETCurrentBDFE<3>` (absent), the geometric evaluator of one slot.
`M_updated` records the (rule, element) the cached quantities were last computed from. -/
structure ETCurrentBDFE (R : Type) where
  M_quadratureRule : QuadratureRule R
  M_refTangents : List (List Int)
  M_updated : Option (QuadratureRule R × Nat)
  M_wMeas : Nat → R

/-- Constructor `ETCurrentBDFE<3> (geoMap, qr)`. -/
def ETCurrentBDFE.new {R : Type} [Zero R] (qr : QuadratureRule R) : ETCurrentBDFE R :=
  { M_quadratureRule := qr, M_refTangents := [], M_updated := none, M_wMeas := fun _ => 0 }

/-- The call `setRefTangents (t)`. -/
def ETCurrentBDFE.setRefTangents {R : Type} (g : ETCurrentBDFE R) (t : List (List Int)) :
    ETCurrentBDFE R :=
  { g with M_refTangents := t }

/-- The call `setQuadratureRule (qr)`. -/
def ETCurrentBDFE.setQuadratureRule {R : Type} (g : ETCurrentBDFE R) (qr : QuadratureRule R) :
    ETCurrentBDFE R :=
  { g with M_quadratureRule := qr }

/-- The call `update (M_mesh->element (elementID))`: every geometric quantity is recomputed
from the current rule and the element. -/
def ETCurrentBDFE.update {R : Type} (G : GeometricMap R) (g : ETCurrentBDFE R) (elementID : Nat) :
    ETCurrentBDFE R :=
  { g with
    M_updated := some (g.M_quadratureRule, elementID)
    M_wMeas := G.wMeas g.M_refTangents g.M_quadratureRule elementID }

/-- Modelled from the spec: `ETCurrentFE<3, field_dim>` (absent), the basis evaluator of one
slot.  `M_updated` records the (rule, element, flag) the cached basis values were last
computed from. -/
structure ETCurrentFE (R : Type) where
  M_quadratureRule : QuadratureRule R
  M_updated : Option (QuadratureRule R × Nat × Nat)

/-- Constructor `ETCurrentFE<3, field_dim> (refFE, geoMap, qr)`. -/
def ETCurrentFE.new {R : Type} (qr : QuadratureRule R) : ETCurrentFE R :=
  { M_quadratureRule := qr, M_updated := none }

/-- The call `setQuadratureRule (qr)`. -/
def ETCurrentFE.setQuadratureRule {R : Type} (t : ETCurrentFE R) (qr : QuadratureRule R) :
    ETCurrentFE R :=
  { t with M_quadratureRule := qr }

/-- The call `update (M_mesh->element (elementID), flag)`. -/
def ETCurrentFE.update {R : Type} (t : ETCurrentFE R) (elementID flag : Nat) : ETCurrentFE R :=
  { t with M_updated := some (t.M_quadratureRule, elementID, flag) }

/-- A pointer held by the evaluation tree: null, one of the owning driver's evaluators
(by slot), or an evaluator of another driver. -/
inductive CFEPtr where
  | null
  | own (slot : Nat)
  | foreign (slot : Nat)
  deriving DecidableEq, Repr

/-- Modelled from the spec: the symbolic expression, through the only things the driver uses of
it: the update flag of its evaluation type and the value it yields at (quadrature point,
local dof) from the bound rule, the element of the last tree update and the two bound
evaluators. -/
structure Expression (R : Type) where
  S_testUpdateFlag : Nat
  value_qi : Option (QuadratureRule R) → Option Nat → ETCurrentBDFE R → ETCurrentFE R →
    Nat → Nat → R

/-- Modelled from the spec: the evaluation tree (`evaluation_Type`, absent): the expression and
the explicit bindings to the current rule and evaluators. -/
structure Evaluation (R : Type) where
  M_expression : Expression R
  M_quadrature : Option (QuadratureRule R)
  M_globalCFE : CFEPtr
  M_testCFE : CFEPtr
  M_element : Option Nat

/-- Constructor `evaluation_Type (expression)`: nothing is bound yet. -/
def Evaluation.new {R : Type} (expression : Expression R) : Evaluation R :=
  { M_expression := expression, M_quadrature := none, M_globalCFE := .null,
    M_testCFE := .null, M_element := none }

/-- The pointer as seen from a copy of the object that holds it. -/
def CFEPtr.copied : CFEPtr → CFEPtr
  | .null => .null
  | .own s => .foreign s
  | .foreign s => .foreign s

/-- Copy constructor of the evaluation tree: the pointers still designate the evaluators of
the object copied from. -/
def Evaluation.copy {R : Type} (E : Evaluation R) : Evaluation R :=
  { E with M_globalCFE := E.M_globalCFE.copied, M_testCFE := E.M_testCFE.copied }

/-- The call `setQuadrature (qr)`. -/
def Evaluation.setQuadrature {R : Type} (E : Evaluation R) (qr : QuadratureRule R) : Evaluation R :=
  { E with M_quadrature := some qr }

/-- The call `setGlobalCFE (M_globalCFE[slot])`. -/
def Evaluation.setGlobalCFE {R : Type} (E : Evaluation R) (slot : Nat) : Evaluation R :=
  { E with M_globalCFE := .own slot }

/-- The call `setTestCFE (M_testCFE[slot])`. -/
def Evaluation.setTestCFE {R : Type} (E : Evaluation R) (slot : Nat) : Evaluation R :=
  { E with M_testCFE := .own slot }

/-- The call `update (elementID)`. -/
def Evaluation.update {R : Type} (E : Evaluation R) (elementID : Nat) : Evaluation R :=
  { E with M_element := some elementID }

/-- Dereference of a pointer of the evaluation tree into the driver's evaluator array. -/
def deref {α : Type} (xs : List α) : CFEPtr → Except Fault α
  | .own s => readAt xs s
  | .null => .error .unbound
  | .foreign _ => .error .unbound

/-- Modelled from the spec: `ETVectorElemental` (absent): `M_nbRow` local entries, each with a
global row index and an accumulated scalar. -/
structure ETVectorElemental (R : Type) where
  M_nbRow : Nat
  M_rowIndices : Nat → Nat
  M_rawData : Nat → R

/-- Constructor `ETVectorElemental (nbRow)`. -/
def ETVectorElemental.new {R : Type} [Zero R] (nbRow : Nat) : ETVectorElemental R :=
  { M_nbRow := nbRow, M_rowIndices := fun _ => 0, M_rawData := fun _ => 0 }

/-- The call `zero()`: scalars reset, row indices untouched. -/
def ETVectorElemental.zero {R : Type} [Zero R] (V : ETVectorElemental R) : ETVectorElemental R :=
  { V with M_rawData := fun _ => 0 }

/-- The call `setRowIndex (localIndex, globalIndex)`. -/
def ETVectorElemental.setRowIndex {R : Type} (V : ETVectorElemental R) (localIndex globalIndex : Nat) :
    Except Fault (ETVectorElemental R) :=
  if localIndex < V.M_nbRow then
    .ok { V with M_rowIndices := Function.update V.M_rowIndices localIndex globalIndex }
  else .error .outOfRange

/-- The statement `element (localIndex) += x`. -/
def ETVectorElemental.addElement {R : Type} [Add R] (V : ETVectorElemental R) (localIndex : Nat)
    (x : R) : Except Fault (ETVectorElemental R) :=
  if localIndex < V.M_nbRow then
    .ok { V with M_rawData := Function.update V.M_rawData localIndex (V.M_rawData localIndex + x) }
  else .error .outOfRange

/-- The (row index, value) pairs the buffer holds, in local order. -/
def ETVectorElemental.pairs {R : Type} (V : ETVectorElemental R) : List (Nat × R) :=
  (List.range V.M_nbRow).map (fun i => (V.M_rowIndices i, V.M_rawData i))

/-- Modelled from the spec: additive combination of one (globalIndex, value) pair into the
global vector. -/
def sumIntoGlobalValues {R : Type} [Add R] (vec : Nat → R) (row : Nat) (x : R) : Nat → R :=
  Function.update vec row (vec row + x)

/-- The call `pushToGlobal (vec)`: every pair is added into the global vector. -/
def ETVectorElemental.pushToGlobal {R : Type} [Add R] (V : ETVectorElemental R) (vec : Nat → R) :
    Nat → R :=
  V.pairs.foldl (fun v p => sumIntoGlobalValues v p.1 p.2) vec

/-! ## The driver -/

/-- The data members of `IntegrateVectorFaceIDLSAdapted`. -/
structure IntegrateVectorFaceIDLSAdapted (R : Type) where
  M_mesh : Mesh
  M_boundaryId : Nat
  M_qrAdapter : LevelSetBDQRAdapter R
  M_testSpace : TestSpace
  M_evaluation : Evaluation R
  M_globalCFE : List (ETCurrentBDFE R)
  M_testCFE : List (ETCurrentFE R)
  M_elementalVector : ETVectorElemental R

/-- The tangents `t0` of the constructors. -/
def t0 : List (List Int) := [[1, 0, 0], [0, 1, 0]]

/-- The tangents `t1` of the constructors. -/
def t1 : List (List Int) := [[0, 0, 1], [1, 0, 0]]

/-- The tangents `t2` of the constructors. -/
def t2 : List (List Int) := [[-1, 0, 1], [-1, 1, 0]]

/-- The tangents `t3` of the constructors. -/
def t3 : List (List Int) := [[0, 1, 0], [0, 0, 1]]

/-- The body shared by both constructors (lines 225-276 and 297-348): four evaluator pairs on
the adapter's per-slot rules, the reference tangents, the slot-0 bindings. -/
def constructBody {R : Type} [Zero R] (D : IntegrateVectorFaceIDLSAdapted R) :
    IntegrateVectorFaceIDLSAdapted R :=
  let globalCFE := (List.range 4).map (fun i => ETCurrentBDFE.new (D.M_qrAdapter.adaptedBdQR i))
  let testCFE := (List.range 4).map (fun i => ETCurrentFE.new (D.M_qrAdapter.adaptedBdQR i))
  let globalCFE := globalCFE.modify (fun g => g.setRefTangents t0) 0
  let globalCFE := globalCFE.modify (fun g => g.setRefTangents t1) 1
  let globalCFE := globalCFE.modify (fun g => g.setRefTangents t2) 2
  let globalCFE := globalCFE.modify (fun g => g.setRefTangents t3) 3
  { D with
    M_globalCFE := globalCFE
    M_testCFE := testCFE
    M_evaluation :=
      ((D.M_evaluation.setQuadrature (D.M_qrAdapter.adaptedBdQR 0)).setGlobalCFE 0).setTestCFE 0 }

/-- Full data constructor (lines 207-277). -/
def IntegrateVectorFaceIDLSAdapted.new {R : Type} [Zero R] (mesh : Mesh) (boundaryID : Nat)
    (quadratureBD : LevelSetBDQRAdapter R) (testSpace : TestSpace) (expression : Expression R) :
    IntegrateVectorFaceIDLSAdapted R :=
  constructBody
    { M_mesh := mesh
      M_boundaryId := boundaryID
      M_qrAdapter := quadratureBD
      M_testSpace := testSpace
      M_evaluation := Evaluation.new expression
      M_globalCFE := []
      M_testCFE := []
      M_elementalVector := ETVectorElemental.new (testSpace.field_dim * testSpace.nbDof) }

/-- Copy constructor (lines 284-349). -/
def IntegrateVectorFaceIDLSAdapted.copy {R : Type} [Zero R] (integrator : IntegrateVectorFaceIDLSAdapted R) :
    IntegrateVectorFaceIDLSAdapted R :=
  constructBody
    { M_mesh := integrator.M_mesh
      M_boundaryId := integrator.M_boundaryId
      M_qrAdapter := integrator.M_qrAdapter
      M_testSpace := integrator.M_testSpace
      M_evaluation := integrator.M_evaluation.copy
      M_globalCFE := []
      M_testCFE := []
      M_elementalVector := integrator.M_elementalVector }

/-- The read `M_evaluation.value_qi (q, k)`: the tree reads through its bindings. -/
def value_qi {R : Type} (D : IntegrateVectorFaceIDLSAdapted R) (q k : Nat) : Except Fault R :=
  (deref D.M_globalCFE D.M_evaluation.M_globalCFE).bind fun g =>
  (deref D.M_testCFE D.M_evaluation.M_testCFE).bind fun t =>
  .ok (D.M_evaluation.M_expression.value_qi D.M_evaluation.M_quadrature D.M_evaluation.M_element
    g t q k)

/-- Lines 410-437 of `addTo`: the elemental vector is zeroed, the adapter is updated for the
face, the rule is given to the two evaluators of the slot, they are updated with the
element, and the evaluation tree is rebound and updated. -/
def bindFace {R : Type} [Zero R] (G : GeometricMap R) (D : IntegrateVectorFaceIDLSAdapted R) (f : Face) :
    Except Fault (IntegrateVectorFaceIDLSAdapted R) :=
  let elementalVector := D.M_elementalVector.zero
  let faceIDinAdjacentElement := f.firstAdjacentElementPosition
  let adjacentElementID := f.firstAdjacentElementIdentity
  let qrAdapter := D.M_qrAdapter.update adjacentElementID faceIDinAdjacentElement
  (modifyAt D.M_globalCFE faceIDinAdjacentElement
    (fun g => g.setQuadratureRule (qrAdapter.adaptedBdQR faceIDinAdjacentElement))).bind fun globalCFE =>
  (modifyAt D.M_testCFE faceIDinAdjacentElement
    (fun t => t.setQuadratureRule (qrAdapter.adaptedBdQR faceIDinAdjacentElement))).bind fun testCFE =>
  (modifyAt globalCFE faceIDinAdjacentElement
    (fun g => g.update G adjacentElementID)).bind fun globalCFE =>
  (modifyAt testCFE faceIDinAdjacentElement
    (fun t => t.update adjacentElementID D.M_evaluation.M_expression.S_testUpdateFlag)).bind fun testCFE =>
  let evaluation := D.M_evaluation.setQuadrature (qrAdapter.adaptedBdQR faceIDinAdjacentElement)
  let evaluation := evaluation.setGlobalCFE faceIDinAdjacentElement
  let evaluation := evaluation.setTestCFE faceIDinAdjacentElement
  let evaluation := evaluation.update adjacentElementID
  .ok { D with
        M_elementalVector := elementalVector
        M_qrAdapter := qrAdapter
        M_globalCFE := globalCFE
        M_testCFE := testCFE
        M_evaluation := evaluation }

/-- Lines 444-449: the row indices of block `iblock`. -/
def setRowIndices {R : Type} (D : IntegrateVectorFaceIDLSAdapted R) (adjacentElementID iblock : Nat)
    (V : ETVectorElemental R) : Except Fault (ETVectorElemental R) :=
  let nbTestDof := D.M_testSpace.nbDof
  forLoop nbTestDof (fun i V =>
    V.setRowIndex (i + iblock * nbTestDof)
      (wrapUInt
        (D.M_testSpace.localToGlobalMap adjacentElementID i +
          iblock * D.M_testSpace.numTotalDof))) V

/-- Lines 455-460: the contributions of quadrature point `iQuadPt` to block `iblock`. -/
def accumulatePoint {R : Type} [Add R] [Mul R] (D : IntegrateVectorFaceIDLSAdapted R)
    (faceIDinAdjacentElement iblock iQuadPt : Nat) (V : ETVectorElemental R) :
    Except Fault (ETVectorElemental R) :=
  let nbTestDof := D.M_testSpace.nbDof
  forLoop nbTestDof (fun i V =>
    (value_qi D iQuadPt (i + iblock * nbTestDof)).bind fun val =>
    (readAt D.M_globalCFE faceIDinAdjacentElement).bind fun g =>
    V.addElement (i + iblock * nbTestDof) (val * g.M_wMeas iQuadPt)) V

/-- Lines 440-462: the loop on the blocks; only the elemental vector changes. -/
def assembleBlocks {R : Type} [Add R] [Mul R] (D : IntegrateVectorFaceIDLSAdapted R)
    (faceIDinAdjacentElement adjacentElementID : Nat) (V : ETVectorElemental R) :
    Except Fault (ETVectorElemental R) :=
  forLoop D.M_testSpace.field_dim (fun iblock V =>
    (setRowIndices D adjacentElementID iblock V).bind fun V =>
    forLoop (D.M_qrAdapter.adaptedBdQR faceIDinAdjacentElement).nbQuadPt
      (fun iQuadPt V => accumulatePoint D faceIDinAdjacentElement iblock iQuadPt V) V) V

/-- Lines 410-464: one face whose marker matched. -/
def processFace {R : Type} [Zero R] [Add R] [Mul R] (G : GeometricMap R)
    (S : IntegrateVectorFaceIDLSAdapted R × (Nat → R)) (f : Face) :
    Except Fault (IntegrateVectorFaceIDLSAdapted R × (Nat → R)) :=
  (bindFace G S.1 f).bind fun D =>
  (assembleBlocks D f.firstAdjacentElementPosition f.firstAdjacentElementIdentity
    D.M_elementalVector).bind fun V =>
  .ok ({ D with M_elementalVector := V }, V.pushToGlobal S.2)

/-- One iteration of the loop on the boundary faces (lines 403-465). -/
def faceStep {R : Type} [Zero R] [Add R] [Mul R] (G : GeometricMap R)
    (S : IntegrateVectorFaceIDLSAdapted R × (Nat → R)) (f : Face) :
    Except Fault (IntegrateVectorFaceIDLSAdapted R × (Nat → R)) :=
  if f.markerID ≠ S.1.M_boundaryId then .ok S else processFace G S f

/-- The method `addTo (VectorType& vec)` (lines 397-466): the driver and the vector after
the pass. -/
def addTo {R : Type} [Zero R] [Add R] [Mul R] (G : GeometricMap R)
    (D : IntegrateVectorFaceIDLSAdapted R) (vec : Nat → R) :
    Except Fault (IntegrateVectorFaceIDLSAdapted R × (Nat → R)) :=
  let nbBoundaryFaces := D.M_mesh.numBFaces
  forLoop nbBoundaryFaces (fun iFace S =>
    (D.M_mesh.face iFace).bind fun f => faceStep G S f) (D, vec)

/-- Modelled from the spec: the macro `ASSERT` (absent): a violated condition is fatal. -/
def ASSERT (cond : Bool) (fault : Fault) : Except Fault Unit :=
  if cond then .ok () else .error fault

/-- The overload `addTo (std::shared_ptr<VectorType> vec)` (lines 152-157); `none` is the
null pointer, and `*vec` on it, were the assertion passed, is a fault of its own. -/
def addToPtr {R : Type} [Zero R] [Add R] [Mul R] (G : GeometricMap R)
    (D : IntegrateVectorFaceIDLSAdapted R) (vec : Option (Nat → R)) :
    Except Fault (IntegrateVectorFaceIDLSAdapted R × (Nat → R)) :=
  (ASSERT vec.isSome .emptyVector).bind fun _ =>
  match vec with
  | some v => addTo G D v
  | none => .error .unbound

/-- The operator `>>` on a vector (lines 119-123). -/
def shiftInto {R : Type} [Zero R] [Add R] [Mul R] (G : GeometricMap R)
    (D : IntegrateVectorFaceIDLSAdapted R) (vec : Nat → R) :
    Except Fault (IntegrateVectorFaceIDLSAdapted R × (Nat → R)) :=
  addTo G D vec

/-- The operator `>>` on a shared pointer (lines 126-130). -/
def shiftIntoPtr {R : Type} [Zero R] [Add R] [Mul R] (G : GeometricMap R)
    (D : IntegrateVectorFaceIDLSAdapted R) (vec : Option (Nat → R)) :
    Except Fault (IntegrateVectorFaceIDLSAdapted R × (Nat → R)) :=
  addToPtr G D vec

/-! ## Well-formed drivers and the reference definition -/

/-- What the constructors establish and `addTo` keeps: four evaluators of each kind and an
elemental vector of `field_dim * nbDof` rows. -/
def WellFormed {R : Type} (D : IntegrateVectorFaceIDLSAdapted R) : Prop :=
  D.M_globalCFE.length = 4 ∧ D.M_testCFE.length = 4 ∧
    D.M_elementalVector.M_nbRow = D.M_testSpace.field_dim * D.M_testSpace.nbDof

instance {R : Type} (D : IntegrateVectorFaceIDLSAdapted R) : Decidable (WellFormed D) := by
  unfold WellFormed
  infer_instance

/-- Every face that carries the marker `boundaryId` sits at a local slot below 4. -/
def SlotsBelow4 (faces : List Face) (boundaryId : Nat) : Prop :=
  ∀ f ∈ faces, f.markerID = boundaryId → f.firstAdjacentElementPosition < 4

instance (faces : List Face) (boundaryId : Nat) : Decidable (SlotsBelow4 faces boundaryId) := by
  unfold SlotsBelow4
  infer_instance

/-- The configuration of a driver: what `addTo` never changes. -/
structure Config (R : Type) where
  mesh : Mesh
  boundaryId : Nat
  adapt : Nat → Nat → Nat → QuadratureRule R
  testSpace : TestSpace
  expression : Expression R
  refTangents : List (List (List Int))

/-- The configuration a driver carries. -/
def IntegrateVectorFaceIDLSAdapted.config {R : Type} (D : IntegrateVectorFaceIDLSAdapted R) : Config R :=
  { mesh := D.M_mesh
    boundaryId := D.M_boundaryId
    adapt := D.M_qrAdapter.adapt
    testSpace := D.M_testSpace
    expression := D.M_evaluation.M_expression
    refTangents := D.M_globalCFE.map (fun g => g.M_refTangents) }

/-- The adapted rule of slot `s` of element `e`. -/
def Config.rule {R : Type} (C : Config R) (e s : Nat) : QuadratureRule R :=
  C.adapt e s s

/-- The reference tangents of slot `s`. -/
def Config.tangents {R : Type} (C : Config R) (s : Nat) : List (List Int) :=
  C.refTangents.getD s []

/-- The geometric evaluator of slot `s` once it holds the rule of (e, s) and has been updated
with `e`. -/
def Config.globalCFE {R : Type} (G : GeometricMap R) (C : Config R) (e s : Nat) : ETCurrentBDFE R :=
  { M_quadratureRule := C.rule e s
    M_refTangents := C.tangents s
    M_updated := some (C.rule e s, e)
    M_wMeas := G.wMeas (C.tangents s) (C.rule e s) e }

/-- The basis evaluator of slot `s` once it holds the rule of (e, s) and has been updated
with `e`. -/
def Config.testCFE {R : Type} (C : Config R) (e s : Nat) : ETCurrentFE R :=
  { M_quadratureRule := C.rule e s
    M_updated := some (C.rule e s, e, C.expression.S_testUpdateFlag) }

/-- Pure evaluator model: the rule length of (element, slot). -/
def Config.nq {R : Type} (C : Config R) (e s : Nat) : Nat :=
  (C.rule e s).nbQuadPt

/-- Pure evaluator model: the weight of quadrature point `q` of (element, slot). -/
def Config.weight {R : Type} (G : GeometricMap R) (C : Config R) (e s q : Nat) : R :=
  G.wMeas (C.tangents s) (C.rule e s) e q

/-- Pure evaluator model: the value of the expression at (quadrature point, local index) of
(element, slot). -/
def Config.value {R : Type} (G : GeometricMap R) (C : Config R) (e s q k : Nat) : R :=
  C.expression.value_qi (some (C.rule e s)) (some e) (C.globalCFE G e s) (C.testCFE e s) q k

/-- The amount a face adds for local index `k`: the sum over the quadrature points of
value times weight. -/
def Config.amount {R : Type} [Semiring R] (G : GeometricMap R) (C : Config R) (e s k : Nat) : R :=
  ∑ q ∈ Finset.range (C.nq e s), C.value G e s q k * C.weight G e s q

/-- The global row of local dof `i` of block `b` of element `e`: the `UInt` value of
`localToGlobalMap (e, i) + b * numTotalDof`. -/
def Config.globalRow {R : Type} (C : Config R) (e b i : Nat) : Nat :=
  wrapUInt (C.testSpace.localToGlobalMap e i + b * C.testSpace.numTotalDof)

/-- What one face adds at global row `r`. -/
def Config.faceSum {R : Type} [Semiring R] (G : GeometricMap R) (C : Config R) (f : Face) (r : Nat) : R :=
  ∑ b ∈ Finset.range C.testSpace.field_dim, ∑ i ∈ Finset.range C.testSpace.nbDof,
    if C.globalRow f.firstAdjacentElementIdentity b i = r then
      C.amount G f.firstAdjacentElementIdentity f.firstAdjacentElementPosition
        (i + b * C.testSpace.nbDof)
    else 0

/-- What a list of faces adds at global row `r`: the sum of what its faces carrying the
marker add. -/
def Config.facesSum {R : Type} [Semiring R] (G : GeometricMap R) (C : Config R) (faces : List Face)
    (r : Nat) : R :=
  ((faces.filter (fun f => f.markerID = C.boundaryId)).map (fun f => C.faceSum G f r)).sum

/-- The state `bindFace` leaves for a face of element `e` at slot `s`. -/
def boundState {R : Type} [Zero R] (G : GeometricMap R) (D : IntegrateVectorFaceIDLSAdapted R)
    (e s : Nat) : IntegrateVectorFaceIDLSAdapted R :=
  { D with
    M_elementalVector := D.M_elementalVector.zero
    M_qrAdapter := D.M_qrAdapter.update e s
    M_globalCFE := D.M_globalCFE.set s (D.config.globalCFE G e s)
    M_testCFE := D.M_testCFE.set s (D.config.testCFE e s)
    M_evaluation :=
      { M_expression := D.M_evaluation.M_expression
        M_quadrature := some (D.config.rule e s)
        M_globalCFE := .own s
        M_testCFE := .own s
        M_element := some e } }

/-- The (row index, value) pair of local index `k` at the scatter of a face of element `e`
at slot `s`: block `k / nbDof`, local dof `k % nbDof`. -/
def Config.pairAt {R : Type} [Semiring R] (G : GeometricMap R) (C : Config R) (e s k : Nat) : Nat × R :=
  (C.globalRow e (k / C.testSpace.nbDof) (k % C.testSpace.nbDof), C.amount G e s k)

/-- The pairs scattered for a face of element `e` at slot `s`. -/
def Config.facePairs {R : Type} [Semiring R] (G : GeometricMap R) (C : Config R) (e s : Nat) :
    List (Nat × R) :=
  (List.range (C.testSpace.field_dim * C.testSpace.nbDof)).map (C.pairAt G e s)

/-- The elemental vector at the scatter of a face of element `e` at slot `s`, starting from
the elemental vector `V`. -/
def Config.faceVector {R : Type} [Semiring R] (G : GeometricMap R) (C : Config R) (e s : Nat)
    (V : ETVectorElemental R) : ETVectorElemental R :=
  { M_nbRow := V.M_nbRow
    M_rowIndices := fun k =>
      if k < C.testSpace.field_dim * C.testSpace.nbDof then (C.pairAt G e s k).1
      else V.M_rowIndices k
    M_rawData := fun k =>
      if k < C.testSpace.field_dim * C.testSpace.nbDof then (C.pairAt G e s k).2 else 0 }

/-- The driver once a face of element `e` at slot `s` has been processed. -/
def faceState {R : Type} [Semiring R] (G : GeometricMap R) (D : IntegrateVectorFaceIDLSAdapted R)
    (e s : Nat) : IntegrateVectorFaceIDLSAdapted R :=
  { boundState G D e s with
    M_elementalVector := D.config.faceVector G e s D.M_elementalVector }

/-- The driver built on another mesh, everything else alike. -/
def withMesh {R : Type} (D : IntegrateVectorFaceIDLSAdapted R) (m : Mesh) :
    IntegrateVectorFaceIDLSAdapted R :=
  { D with M_mesh := m }

/-- The faces of a mesh that carry the marker `boundaryId`. -/
def Mesh.restrict (m : Mesh) (boundaryId : Nat) : Mesh :=
  { bFaces := m.bFaces.filter (fun f => f.markerID = boundaryId) }

/-- The vector an execution produced. -/
def producedVector {R : Type}
    (x : Except Fault (IntegrateVectorFaceIDLSAdapted R × (Nat → R))) : Except Fault (Nat → R) :=
  x.map Prod.snd

/-! ## A small instance -/

/-- A rule of `n` points. -/
def sampleRule (n : Nat) : QuadratureRule ℤ :=
  { points := List.replicate n ((0, 0, 0), 1) }

/-- An adapter whose rule for (element, face, slot) has `(e + f + i) % 3` points. -/
def sampleAdapter : LevelSetBDQRAdapter ℤ :=
  { adapt := fun e f i => sampleRule ((e + f + i) % 3), M_adaptedQrBd := fun _ => sampleRule 1 }

/-- A test space of two blocks, three local dofs and five global dofs per block. -/
def sampleSpace : TestSpace :=
  { field_dim := 2, nbDof := 3, numTotalDof := 5, localToGlobalMap := fun e i => (e + i) % 5 }

/-- An expression whose value depends on the point, the local index, the element and the
bound geometric evaluator. -/
def sampleExpression : Expression ℤ :=
  { S_testUpdateFlag := 1
    value_qi := fun _ el g _ q k => (q : ℤ) + 2 * (k : ℤ) + ((el.getD 0 : Nat) : ℤ) + g.M_wMeas 0 }

/-- Weights that depend on the tangents, the element and the point. -/
def sampleGeometry : GeometricMap ℤ :=
  { wMeas := fun t _ e q => (q : ℤ) + 1 + (e : ℤ) + ((t.length : Nat) : ℤ) }

/-- Four boundary faces, three of them with marker 7, one of those with an empty rule. -/
def sampleMesh : Mesh :=
  { bFaces := [⟨7, 2, 0⟩, ⟨3, 9, 1⟩, ⟨7, 2, 1⟩, ⟨7, 0, 3⟩] }

/-- The same faces carrying marker 7, other faces in between, another order. -/
def sampleMesh2 : Mesh :=
  { bFaces := [⟨7, 2, 1⟩, ⟨5, 1, 1⟩, ⟨7, 0, 3⟩, ⟨7, 2, 0⟩, ⟨4, 8, 8⟩] }

/-- The driver constructed on the sample data for marker 7. -/
def sampleDriver : IntegrateVectorFaceIDLSAdapted ℤ :=
  IntegrateVectorFaceIDLSAdapted.new sampleMesh 7 sampleAdapter sampleSpace sampleExpression

/-- The sample driver in another state: stale elemental vector, other rules in the
evaluators, the evaluation tree bound to slot 3. -/
def sampleDriverLater : IntegrateVectorFaceIDLSAdapted ℤ :=
  { sampleDriver with
    M_elementalVector := { M_nbRow := 6, M_rowIndices := fun k => 40 + k, M_rawData := fun k => 9 * k }
    M_qrAdapter := sampleDriver.M_qrAdapter.update 5 1
    M_globalCFE := sampleDriver.M_globalCFE.map (fun g =>
      (g.setQuadratureRule (sampleRule 4)).update sampleGeometry 11)
    M_testCFE := sampleDriver.M_testCFE.map (fun t => (t.setQuadratureRule (sampleRule 4)).update 11 1)
    M_evaluation := ((sampleDriver.M_evaluation.setGlobalCFE 3).setTestCFE 3).update 11 }

/-- The all-zero global vector. -/
def zeroVector : Nat → ℤ :=
  fun _ => 0

/-- A test space of two blocks of `2 ^ 32 - 1` global dofs each, three local dofs, local dof
`i` of every element on global dof `i`. -/
def overflowSpace : TestSpace :=
  { field_dim := 2, nbDof := 3, numTotalDof := 2 ^ 32 - 1, localToGlobalMap := fun _ i => i }

/-- The driver constructed on the sample data over `overflowSpace`. -/
def overflowDriver : IntegrateVectorFaceIDLSAdapted ℤ :=
  IntegrateVectorFaceIDLSAdapted.new sampleMesh 7 sampleAdapter overflowSpace sampleExpression

/-! ## Reference tangents -/

/-- The reference tangents the four geometric evaluators hold, by slot. -/
def IntegrateVectorFaceIDLSAdapted.refTangents {R : Type} (D : IntegrateVectorFaceIDLSAdapted R) :
    List (List (List Int)) :=
  D.M_globalCFE.map (fun g => g.M_refTangents)

/-- Component `i` of a vector of three integers. -/
def comp (a : List Int) (i : Nat) : Int :=
  a.getD i 0

/-- Scalar product of two vectors of three integers. -/
def dot3 (a b : List Int) : Int :=
  comp a 0 * comp b 0 + comp a 1 * comp b 1 + comp a 2 * comp b 2

/-- Cross product of two vectors of three integers. -/
def cross3 (a b : List Int) : List Int :=
  [comp a 1 * comp b 2 - comp a 2 * comp b 1,
   comp a 2 * comp b 0 - comp a 0 * comp b 2,
   comp a 0 * comp b 1 - comp a 1 * comp b 0]

/-- The normal of face `s` of the reference tetrahedron, as the specification of the
reference tangents gives it: (0,0,1), (0,1,0), (1,1,1), (1,0,0) for slots 0, 1, 2, 3. -/
def referenceNormal : Nat → List Int
  | 0 => [0, 0, 1]
  | 1 => [0, 1, 0]
  | 2 => [1, 1, 1]
  | _ => [1, 0, 0]

/-- A pair of tangents spans the tangent plane of the face of normal `n`: two vectors,
linearly independent, both orthogonal to `n`. -/
def SpansTangentPlane (t : List (List Int)) (n : List Int) : Prop :=
  ∃ a b, t = [a, b] ∧ cross3 a b ≠ [0, 0, 0] ∧ dot3 a n = 0 ∧ dot3 b n = 0

/-- The state a constructor leaves: exactly four geometric and four basis evaluators, the
pair of slot `s` on the rule of the driver's adapter for slot `s`, and the evaluation tree
bound to the adapter's rule for slot 0 and to the driver's own evaluators of slot 0. -/
def Constructed {R : Type} (D : IntegrateVectorFaceIDLSAdapted R) : Prop :=
  D.M_globalCFE.length = 4 ∧ D.M_testCFE.length = 4 ∧
    (∀ s, s < 4 → ∃ g t, D.M_globalCFE[s]? = some g ∧ D.M_testCFE[s]? = some t ∧
      g.M_quadratureRule = D.M_qrAdapter.adaptedBdQR s ∧
      t.M_quadratureRule = D.M_qrAdapter.adaptedBdQR s) ∧
    D.M_evaluation.M_quadrature = some (D.M_qrAdapter.adaptedBdQR 0) ∧
    D.M_evaluation.M_globalCFE = .own 0 ∧ D.M_evaluation.M_testCFE = .own 0

/-! ## Basic facts about loops and arrays -/

theorem forLoop_succ {σ : Type} (n : Nat) (body : Nat → σ → Except Fault σ) (init : σ) :
    forLoop (n + 1) body init = (forLoop n body init).bind (body n) := rfl

theorem forLoop_congr {σ : Type} (n : Nat) (b1 b2 : Nat → σ → Except Fault σ) (init : σ)
    (h : ∀ i s, i < n → b1 i s = b2 i s) : forLoop n b1 init = forLoop n b2 init := by
  induction n with
  | zero => rfl
  | succ n ih =>
    rw [forLoop_succ, forLoop_succ, ih (fun i s hi => h i s (by omega))]
    cases forLoop n b2 init with
    | error x => rfl
    | ok s => exact h n s (by omega)

theorem forLoop_readAt_eq_foldlM {α σ : Type} (l : List α) (step : σ → α → Except Fault σ)
    (init : σ) :
    forLoop l.length (fun i s => (readAt l i).bind fun a => step s a) init =
      l.foldlM step init := by
  induction l using List.reverseRecOn with
  | nil => rfl
  | append_singleton l a ih =>
    rw [List.length_append, List.length_singleton, forLoop_succ, List.foldlM_append, ← ih]
    have hc : forLoop l.length (fun i s => (readAt (l ++ [a]) i).bind fun x => step s x) init =
        forLoop l.length (fun i s => (readAt l i).bind fun x => step s x) init := by
      apply forLoop_congr
      intro i s hi
      simp only [readAt, List.getElem?_append_left hi]
    rw [hc]
    cases forLoop l.length (fun i s => (readAt l i).bind fun x => step s x) init with
    | error x => rfl
    | ok s =>
      have hr : readAt (l ++ [a]) l.length = .ok a := by
        simp [readAt]
      simp only [Except.bind, hr, bind, List.foldlM_cons, List.foldlM_nil, pure, Except.pure]
      cases step s a with
      | error x => rfl
      | ok s1 => rfl

theorem modifyAt_of_some {α : Type} {xs : List α} {i : Nat} {a : α} (f : α → α)
    (h : xs[i]? = some a) : modifyAt xs i f = .ok (xs.set i (f a)) := by
  simp [modifyAt, h]

theorem readAt_of_some {α : Type} {xs : List α} {i : Nat} {a : α}
    (h : xs[i]? = some a) : readAt xs i = .ok a := by
  simp [readAt, h]

theorem getElem?_set_self_of_some {α : Type} {xs : List α} {i : Nat} {a : α} (b : α)
    (h : xs[i]? = some a) : (xs.set i b)[i]? = some b := by
  have hi : i < xs.length := by
    by_contra hc
    rw [List.getElem?_eq_none (by omega)] at h
    cases h
  simp [List.getElem?_set, hi]

theorem tangents_of_some {R : Type} {D : IntegrateVectorFaceIDLSAdapted R} {s : Nat}
    {g : ETCurrentBDFE R} (h : D.M_globalCFE[s]? = some g) :
    D.config.tangents s = g.M_refTangents := by
  simp [Config.tangents, IntegrateVectorFaceIDLSAdapted.config, List.getD, h]

theorem bindFace_eq {R : Type} [Zero R] (G : GeometricMap R) (D : IntegrateVectorFaceIDLSAdapted R)
    (f : Face) {g : ETCurrentBDFE R} {t : ETCurrentFE R}
    (hg : D.M_globalCFE[f.firstAdjacentElementPosition]? = some g)
    (ht : D.M_testCFE[f.firstAdjacentElementPosition]? = some t) :
    bindFace G D f =
      .ok (boundState G D f.firstAdjacentElementIdentity f.firstAdjacentElementPosition) := by
  have hT := tangents_of_some hg
  unfold bindFace
  simp only [modifyAt_of_some _ hg, modifyAt_of_some _ ht, Except.bind,
    modifyAt_of_some _ (getElem?_set_self_of_some _ hg),
    modifyAt_of_some _ (getElem?_set_self_of_some _ ht), List.set_set]
  simp only [boundState, Config.globalCFE, Config.testCFE, hT]
  simp [Config.rule,
    ETCurrentBDFE.update, ETCurrentBDFE.setQuadratureRule, ETCurrentFE.update,
    ETCurrentFE.setQuadratureRule, LevelSetBDQRAdapter.adaptedBdQR, LevelSetBDQRAdapter.update,
    IntegrateVectorFaceIDLSAdapted.config, Evaluation.update, Evaluation.setTestCFE,
    Evaluation.setGlobalCFE, Evaluation.setQuadrature]


theorem forLoop_addElement {R : Type} [Add R] (V : ETVectorElemental R) (o n : Nat) (F : Nat → R)
    (h : o + n ≤ V.M_nbRow) :
    forLoop n (fun i W => W.addElement (i + o) (F i)) V =
      .ok { V with M_rawData := fun k =>
              if o ≤ k ∧ k < o + n then V.M_rawData k + F (k - o) else V.M_rawData k } := by
  induction n with
  | zero =>
    have : (fun k => if o ≤ k ∧ k < o + 0 then V.M_rawData k + F (k - o) else V.M_rawData k)
        = V.M_rawData := by
      funext k
      have hk : ¬ (o ≤ k ∧ k < o + 0) := by omega
      rw [if_neg hk]
    rw [this]
    rfl
  | succ n ih =>
    rw [forLoop_succ, ih (by omega)]
    have hlt : n + o < V.M_nbRow := by omega
    simp only [Except.bind, ETVectorElemental.addElement, hlt, if_true]
    congr 2
    funext k
    by_cases hk : k = n + o
    · subst hk
      have h1 : ¬ (o ≤ n + o ∧ n + o < o + n) := by omega
      have h2 : o ≤ n + o ∧ n + o < o + (n + 1) := by omega
      rw [Function.update_same, if_neg h1, if_pos h2]
      simp
    · rw [Function.update_noteq hk]
      by_cases h1 : o ≤ k ∧ k < o + n
      · have h2 : o ≤ k ∧ k < o + (n + 1) := by omega
        rw [if_pos h1, if_pos h2]
      · have h2 : ¬ (o ≤ k ∧ k < o + (n + 1)) := by omega
        rw [if_neg h1, if_neg h2]

theorem forLoop_setRowIndex {R : Type} (V : ETVectorElemental R) (o n : Nat) (F : Nat → Nat)
    (h : o + n ≤ V.M_nbRow) :
    forLoop n (fun i W => W.setRowIndex (i + o) (F i)) V =
      .ok { V with M_rowIndices := fun k =>
              if o ≤ k ∧ k < o + n then F (k - o) else V.M_rowIndices k } := by
  induction n with
  | zero =>
    have : (fun k => if o ≤ k ∧ k < o + 0 then F (k - o) else V.M_rowIndices k)
        = V.M_rowIndices := by
      funext k
      have hk : ¬ (o ≤ k ∧ k < o + 0) := by omega
      rw [if_neg hk]
    rw [this]
    rfl
  | succ n ih =>
    rw [forLoop_succ, ih (by omega)]
    have hlt : n + o < V.M_nbRow := by omega
    simp only [Except.bind, ETVectorElemental.setRowIndex, hlt, if_true]
    congr 2
    funext k
    by_cases hk : k = n + o
    · subst hk
      have h2 : o ≤ n + o ∧ n + o < o + (n + 1) := by omega
      rw [Function.update_same, if_pos h2]
      simp
    · rw [Function.update_noteq hk]
      by_cases h1 : o ≤ k ∧ k < o + n
      · have h2 : o ≤ k ∧ k < o + (n + 1) := by omega
        rw [if_pos h1, if_pos h2]
      · have h2 : ¬ (o ≤ k ∧ k < o + (n + 1)) := by omega
        rw [if_neg h1, if_neg h2]

theorem forLoop_quadrature {R : Type} [Semiring R] (V : ETVectorElemental R) (o m nq : Nat)
    (F : Nat → Nat → R) (h : o + m ≤ V.M_nbRow) :
    forLoop nq (fun q W => forLoop m (fun i W => W.addElement (i + o) (F q i)) W) V =
      .ok { V with M_rawData := fun k =>
              if o ≤ k ∧ k < o + m then V.M_rawData k + ∑ q ∈ Finset.range nq, F q (k - o)
              else V.M_rawData k } := by
  induction nq with
  | zero =>
    have : (fun k => if o ≤ k ∧ k < o + m then
        V.M_rawData k + ∑ q ∈ Finset.range 0, F q (k - o) else V.M_rawData k) = V.M_rawData := by
      funext k
      simp
    rw [this]
    rfl
  | succ n ih =>
    rw [forLoop_succ, ih]
    simp only [Except.bind]
    rw [forLoop_addElement _ o m (F n) (by simpa using h)]
    congr 2
    funext k
    by_cases h1 : o ≤ k ∧ k < o + m
    · simp only [if_pos h1, Finset.sum_range_succ, add_assoc]
    · simp only [if_neg h1]

theorem value_qi_boundState {R : Type} [Zero R] (G : GeometricMap R)
    (D : IntegrateVectorFaceIDLSAdapted R) (e s q k : Nat)
    {g : ETCurrentBDFE R} {t : ETCurrentFE R}
    (hg : D.M_globalCFE[s]? = some g) (ht : D.M_testCFE[s]? = some t) :
    value_qi (boundState G D e s) q k = .ok (D.config.value G e s q k) := by
  simp only [value_qi, boundState, deref, readAt_of_some (getElem?_set_self_of_some _ hg),
    readAt_of_some (getElem?_set_self_of_some _ ht), Except.bind, Config.value]
  rfl

theorem readAt_boundState {R : Type} [Zero R] (G : GeometricMap R)
    (D : IntegrateVectorFaceIDLSAdapted R) (e s : Nat) {g : ETCurrentBDFE R}
    (hg : D.M_globalCFE[s]? = some g) :
    readAt (boundState G D e s).M_globalCFE s = .ok (D.config.globalCFE G e s) := by
  simp only [boundState, readAt_of_some (getElem?_set_self_of_some _ hg)]

theorem accumulatePoint_boundState {R : Type} [Semiring R] (G : GeometricMap R)
    (D : IntegrateVectorFaceIDLSAdapted R) (e s b q : Nat) (V : ETVectorElemental R)
    {g : ETCurrentBDFE R} {t : ETCurrentFE R}
    (hg : D.M_globalCFE[s]? = some g) (ht : D.M_testCFE[s]? = some t) :
    accumulatePoint (boundState G D e s) s b q V =
      forLoop D.M_testSpace.nbDof (fun i W =>
        W.addElement (i + b * D.M_testSpace.nbDof)
          (D.config.value G e s q (i + b * D.M_testSpace.nbDof) * D.config.weight G e s q)) V := by
  unfold accumulatePoint
  simp only [value_qi_boundState G D e s _ _ hg ht, readAt_boundState G D e s hg, Except.bind]
  rfl

theorem div_mod_of_block {n m k : Nat} (lo : n * m ≤ k) (hi : k < n * m + m) :
    k / m = n ∧ k % m = k - n * m := by
  have hd : k / m = n := Nat.div_eq_of_lt_le lo (by rw [Nat.succ_mul]; exact hi)
  refine ⟨hd, ?_⟩
  have := Nat.div_add_mod k m
  rw [hd, Nat.mul_comm] at this
  omega

theorem forLoop_blocks {R : Type} [Semiring R] (V : ETVectorElemental R) (m nq : Nat)
    (rowF : Nat → Nat → Nat) (valF : Nat → Nat → R) (n : Nat) (h : n * m ≤ V.M_nbRow) :
    forLoop n (fun b W =>
        (forLoop m (fun i W => W.setRowIndex (i + b * m) (rowF b i)) W).bind fun W =>
          forLoop nq (fun q W => forLoop m (fun i W =>
            W.addElement (i + b * m) (valF q (i + b * m))) W) W) V =
      .ok { M_nbRow := V.M_nbRow
            M_rowIndices := fun k => if k < n * m then rowF (k / m) (k % m) else V.M_rowIndices k
            M_rawData := fun k =>
              if k < n * m then V.M_rawData k + ∑ q ∈ Finset.range nq, valF q k
              else V.M_rawData k } := by
  induction n with
  | zero =>
    simp [forLoop]
  | succ n ih =>
    have hs : (n + 1) * m = n * m + m := Nat.succ_mul n m
    rw [hs] at h
    rw [forLoop_succ, ih (by omega)]
    simp only [Except.bind]
    rw [forLoop_setRowIndex _ (n * m) m (rowF n) (by simpa using h)]
    simp only []
    rw [forLoop_quadrature _ (n * m) m nq (fun q i => valF q (i + n * m)) (by simpa using h)]
    congr 2
    · funext k
      by_cases h1 : n * m ≤ k ∧ k < n * m + m
      · obtain ⟨hd, hm⟩ := div_mod_of_block h1.1 h1.2
        have h2 : k < (n + 1) * m := by omega
        simp only [if_pos h1, if_pos h2, hd, hm]
      · by_cases h3 : k < n * m
        · have h2 : k < (n + 1) * m := by omega
          simp only [if_neg h1, if_pos h3, if_pos h2]
        · have h2 : ¬ k < (n + 1) * m := by omega
          simp only [if_neg h1, if_neg h3, if_neg h2]
    · funext k
      by_cases h1 : n * m ≤ k ∧ k < n * m + m
      · have h2 : k < (n + 1) * m := by omega
        have h3 : ¬ k < n * m := by omega
        have h4 : k - n * m + n * m = k := by omega
        simp only [if_pos h1, if_pos h2, if_neg h3, h4]
      · by_cases h3 : k < n * m
        · have h2 : k < (n + 1) * m := by omega
          simp only [if_neg h1, if_pos h3, if_pos h2]
        · have h2 : ¬ k < (n + 1) * m := by omega
          simp only [if_neg h1, if_neg h3, if_neg h2]

theorem assembleBlocks_boundState {R : Type} [Semiring R] (G : GeometricMap R)
    (D : IntegrateVectorFaceIDLSAdapted R) (e s : Nat)
    {g : ETCurrentBDFE R} {t : ETCurrentFE R}
    (hg : D.M_globalCFE[s]? = some g) (ht : D.M_testCFE[s]? = some t)
    (hN : D.M_elementalVector.M_nbRow = D.M_testSpace.field_dim * D.M_testSpace.nbDof) :
    assembleBlocks (boundState G D e s) s e (boundState G D e s).M_elementalVector =
      .ok (D.config.faceVector G e s D.M_elementalVector) := by
  unfold assembleBlocks setRowIndices
  simp only [accumulatePoint_boundState G D e s _ _ _ hg ht]
  refine (forLoop_blocks D.M_elementalVector.zero D.M_testSpace.nbDof (D.config.nq e s)
    (fun b i => wrapUInt (D.M_testSpace.localToGlobalMap e i + b * D.M_testSpace.numTotalDof))
    (fun q k => D.config.value G e s q k * D.config.weight G e s q)
    D.M_testSpace.field_dim (by simp [ETVectorElemental.zero, hN])).trans ?_
  simp [Config.faceVector, Config.pairAt, Config.globalRow, Config.amount,
    ETVectorElemental.zero, IntegrateVectorFaceIDLSAdapted.config]

theorem processFace_eq {R : Type} [Semiring R] (G : GeometricMap R)
    (D : IntegrateVectorFaceIDLSAdapted R) (v : Nat → R) (f : Face)
    (hD : WellFormed D) (hs : f.firstAdjacentElementPosition < 4) :
    processFace G (D, v) f =
      .ok (faceState G D f.firstAdjacentElementIdentity f.firstAdjacentElementPosition,
        (D.config.faceVector G f.firstAdjacentElementIdentity f.firstAdjacentElementPosition
          D.M_elementalVector).pushToGlobal v) := by
  obtain ⟨h1, h2, h3⟩ := hD
  have hg : D.M_globalCFE[f.firstAdjacentElementPosition]? =
      some (D.M_globalCFE[f.firstAdjacentElementPosition]) :=
    List.getElem?_eq_getElem (by omega)
  have ht : D.M_testCFE[f.firstAdjacentElementPosition]? =
      some (D.M_testCFE[f.firstAdjacentElementPosition]) :=
    List.getElem?_eq_getElem (by omega)
  unfold processFace
  simp only [bindFace_eq G D f hg ht, Except.bind,
    assembleBlocks_boundState G D _ _ hg ht h3]
  rfl

/-! ## Scatter as a sum -/

theorem sumIntoGlobalValues_apply {R : Type} [AddMonoid R] (v : Nat → R) (row : Nat) (x : R)
    (r : Nat) :
    sumIntoGlobalValues v row x r = v r + (if row = r then x else 0) := by
  unfold sumIntoGlobalValues
  by_cases h : r = row
  · subst h
    simp
  · have h2 : ¬ row = r := fun hc => h hc.symm
    rw [Function.update_noteq h, if_neg h2, add_zero]

theorem foldl_range_apply {R : Type} [AddCommMonoid R] (step : (Nat → R) → Nat → (Nat → R))
    (c : Nat → Nat → R) (hstep : ∀ v b r, step v b r = v r + c b r) (n : Nat) (v : Nat → R)
    (r : Nat) :
    (List.range n).foldl step v r = v r + ∑ b ∈ Finset.range n, c b r := by
  induction n with
  | zero => simp
  | succ n ih =>
    rw [List.range_succ, List.foldl_append, List.foldl_cons, List.foldl_nil, hstep, ih,
      Finset.sum_range_succ, add_assoc]

theorem sum_range_blocks {R : Type} [AddCommMonoid R] (F : Nat → R) (n m : Nat) :
    ∑ k ∈ Finset.range (n * m), F k =
      ∑ b ∈ Finset.range n, ∑ i ∈ Finset.range m, F (i + b * m) := by
  induction n with
  | zero => simp
  | succ n ih =>
    rw [Nat.succ_mul, Finset.sum_range_add, ih, Finset.sum_range_succ]
    congr 1
    apply Finset.sum_congr rfl
    intro i _
    rw [Nat.add_comm]

theorem pushToGlobal_apply {R : Type} [AddCommMonoid R] (V : ETVectorElemental R) (v : Nat → R)
    (r : Nat) :
    V.pushToGlobal v r =
      v r + ∑ k ∈ Finset.range V.M_nbRow, if V.M_rowIndices k = r then V.M_rawData k else 0 := by
  unfold ETVectorElemental.pushToGlobal ETVectorElemental.pairs
  rw [List.foldl_map]
  exact foldl_range_apply (fun x k => sumIntoGlobalValues x (V.M_rowIndices k) (V.M_rawData k))
    (fun k r => if V.M_rowIndices k = r then V.M_rawData k else 0)
    (fun v k r => sumIntoGlobalValues_apply v _ _ r) _ v r

theorem pushToGlobal_faceVector {R : Type} [Semiring R] (G : GeometricMap R) (C : Config R)
    (e s : Nat) (V : ETVectorElemental R)
    (hN : V.M_nbRow = C.testSpace.field_dim * C.testSpace.nbDof) (v : Nat → R) (r : Nat) :
    (C.faceVector G e s V).pushToGlobal v r = v r + C.faceSum G ⟨0, s, e⟩ r := by
  rw [pushToGlobal_apply]
  congr 1
  simp only [Config.faceVector, hN, Config.faceSum]
  rw [sum_range_blocks]
  apply Finset.sum_congr rfl
  intro b hb
  apply Finset.sum_congr rfl
  intro i hi
  have hb2 := Finset.mem_range.mp hb
  have hi2 := Finset.mem_range.mp hi
  have hlt : i + b * C.testSpace.nbDof < C.testSpace.field_dim * C.testSpace.nbDof := by
    calc i + b * C.testSpace.nbDof < C.testSpace.nbDof + b * C.testSpace.nbDof := by omega
      _ = (b + 1) * C.testSpace.nbDof := by rw [Nat.succ_mul, Nat.add_comm]
      _ ≤ C.testSpace.field_dim * C.testSpace.nbDof := Nat.mul_le_mul_right _ hb2
  have hpos : 0 < C.testSpace.nbDof := by omega
  have hd : (i + b * C.testSpace.nbDof) / C.testSpace.nbDof = b := by
    rw [Nat.add_mul_div_right _ _ hpos, Nat.div_eq_of_lt hi2, Nat.zero_add]
  have hm : (i + b * C.testSpace.nbDof) % C.testSpace.nbDof = i := by
    rw [Nat.add_mul_mod_self_right, Nat.mod_eq_of_lt hi2]
  simp only [if_pos hlt, Config.pairAt, hd, hm]

theorem wellFormed_faceState {R : Type} [Semiring R] (G : GeometricMap R)
    (D : IntegrateVectorFaceIDLSAdapted R) (e s : Nat) (hD : WellFormed D) :
    WellFormed (faceState G D e s) := by
  obtain ⟨h1, h2, h3⟩ := hD
  refine ⟨?_, ?_, ?_⟩
  · simpa [faceState, boundState] using h1
  · simpa [faceState, boundState] using h2
  · simpa [faceState, boundState, Config.faceVector] using h3

theorem map_set_refTangents {R : Type} (xs : List (ETCurrentBDFE R)) (s : Nat)
    (g : ETCurrentBDFE R)
    (h : g.M_refTangents = (xs.map (fun x => x.M_refTangents)).getD s []) :
    (xs.set s g).map (fun x => x.M_refTangents) = xs.map (fun x => x.M_refTangents) := by
  apply List.ext_getElem?
  intro i
  by_cases hi : i = s
  · subst hi
    by_cases hl : i < xs.length
    · simp [List.getElem?_set, hl, h, List.getD, List.getElem?_eq_getElem hl]
    · have hl2 : xs.length ≤ i := Nat.le_of_not_lt hl
      have a1 : (List.map (fun x => x.M_refTangents) (xs.set i g)).length ≤ i := by
        simpa using hl2
      have a2 : (List.map (fun x => x.M_refTangents) xs).length ≤ i := by
        simpa using hl2
      rw [List.getElem?_eq_none a1, List.getElem?_eq_none a2]
  · have hi2 : ¬ s = i := fun hc => hi hc.symm
    simp [List.getElem?_set, hi2]

theorem config_faceState {R : Type} [Semiring R] (G : GeometricMap R)
    (D : IntegrateVectorFaceIDLSAdapted R) (e s : Nat) :
    (faceState G D e s).config = D.config := by
  have h := map_set_refTangents D.M_globalCFE s (D.config.globalCFE G e s) rfl
  simp only [IntegrateVectorFaceIDLSAdapted.config, faceState, boundState,
    LevelSetBDQRAdapter.update] at h ⊢
  rw [h]

theorem facesSum_cons {R : Type} [Semiring R] (G : GeometricMap R) (C : Config R) (f : Face)
    (l : List Face) (r : Nat) :
    C.facesSum G (f :: l) r =
      (if f.markerID = C.boundaryId then C.faceSum G f r else 0) + C.facesSum G l r := by
  unfold Config.facesSum
  by_cases h : f.markerID = C.boundaryId
  · simp [List.filter_cons, h]
  · simp [List.filter_cons, h]

theorem faceSum_congr {R : Type} [Semiring R] (G : GeometricMap R) (C : Config R) (f : Face)
    (r : Nat) :
    C.faceSum G ⟨0, f.firstAdjacentElementPosition, f.firstAdjacentElementIdentity⟩ r =
      C.faceSum G f r := rfl

theorem foldlM_faceStep_eq {R : Type} [Semiring R] (G : GeometricMap R) (faces : List Face)
    (D : IntegrateVectorFaceIDLSAdapted R) (v : Nat → R) (hD : WellFormed D)
    (hs : SlotsBelow4 faces D.M_boundaryId) :
    ∃ D1 v1, faces.foldlM (faceStep G) (D, v) = .ok (D1, v1) ∧ WellFormed D1 ∧
      D1.config = D.config ∧ ∀ r, v1 r = v r + D.config.facesSum G faces r := by
  induction faces generalizing D v with
  | nil =>
    exact ⟨D, v, rfl, hD, rfl, fun r => by simp [Config.facesSum]⟩
  | cons f l ih =>
    have hl : SlotsBelow4 l D.M_boundaryId := fun x hx => hs x (List.mem_cons_of_mem _ hx)
    by_cases hm : f.markerID = D.M_boundaryId
    · have hslot := hs f (List.mem_cons_self _ _) hm
      have hstep : faceStep G (D, v) f =
          .ok (faceState G D f.firstAdjacentElementIdentity f.firstAdjacentElementPosition,
            (D.config.faceVector G f.firstAdjacentElementIdentity f.firstAdjacentElementPosition
              D.M_elementalVector).pushToGlobal v) := by
        unfold faceStep
        simp only [hm, ne_eq, not_true_eq_false, if_false]
        exact processFace_eq G D v f hD hslot
      have hc := config_faceState G D f.firstAdjacentElementIdentity f.firstAdjacentElementPosition
      have hb : (faceState G D f.firstAdjacentElementIdentity
          f.firstAdjacentElementPosition).M_boundaryId = D.M_boundaryId := rfl
      obtain ⟨D1, v1, h1, h2, h3, h4⟩ := ih
        (faceState G D f.firstAdjacentElementIdentity f.firstAdjacentElementPosition)
        ((D.config.faceVector G f.firstAdjacentElementIdentity f.firstAdjacentElementPosition
          D.M_elementalVector).pushToGlobal v)
        (wellFormed_faceState G D _ _ hD) (by rw [hb]; exact hl)
      refine ⟨D1, v1, ?_, h2, h3.trans hc, ?_⟩
      · simp only [List.foldlM_cons, hstep, bind, Except.bind]
        exact h1
      · intro r
        have hm2 : f.markerID = D.config.boundaryId := hm
        rw [h4 r, hc, facesSum_cons, if_pos hm2,
          pushToGlobal_faceVector G D.config _ _ _ hD.2.2 v r, faceSum_congr, add_assoc]
    · have hstep : faceStep G (D, v) f = .ok (D, v) := by
        unfold faceStep
        simp only [ne_eq, hm, not_false_eq_true, if_true]
      obtain ⟨D1, v1, h1, h2, h3, h4⟩ := ih D v hD hl
      refine ⟨D1, v1, ?_, h2, h3, ?_⟩
      · simp only [List.foldlM_cons, hstep, bind, Except.bind]
        exact h1
      · intro r
        have hm2 : ¬ f.markerID = D.config.boundaryId := hm
        rw [h4 r, facesSum_cons, if_neg hm2, zero_add]

theorem foldlM_faceStep_ok {R : Type} [Semiring R] (G : GeometricMap R) (faces : List Face)
    (f : Face) (S S1 : IntegrateVectorFaceIDLSAdapted R × (Nat → R))
    (h : faceStep G S f = .ok S1) :
    (f :: faces).foldlM (faceStep G) S = faces.foldlM (faceStep G) S1 := by
  simp only [List.foldlM_cons, h, bind, Except.bind]

theorem foldlM_faceStep_error {R : Type} [Semiring R] (G : GeometricMap R) (faces : List Face)
    (f : Face) (S : IntegrateVectorFaceIDLSAdapted R × (Nat → R)) (x : Fault)
    (h : faceStep G S f = .error x) :
    (f :: faces).foldlM (faceStep G) S = .error x := by
  simp only [List.foldlM_cons, h, bind, Except.bind]

theorem foldlM_faceStep_skip {R : Type} [Semiring R] (G : GeometricMap R) (faces : List Face)
    (S : IntegrateVectorFaceIDLSAdapted R × (Nat → R))
    (h : ∀ f ∈ faces, f.markerID ≠ S.1.M_boundaryId) :
    faces.foldlM (faceStep G) S = .ok S := by
  induction faces with
  | nil => rfl
  | cons f l ih =>
    have hstep : faceStep G S f = .ok S := by
      unfold faceStep
      rw [if_pos (h f (List.mem_cons_self _ _))]
    rw [foldlM_faceStep_ok G l f S S hstep]
    exact ih (fun x hx => h x (List.mem_cons_of_mem _ hx))

/-! ## The mesh is read only by the loop on the faces -/

theorem bindFace_withMesh {R : Type} [Zero R] (G : GeometricMap R)
    (D : IntegrateVectorFaceIDLSAdapted R) (m : Mesh) (f : Face) :
    bindFace G (withMesh D m) f = (bindFace G D f).map (fun E => withMesh E m) := by
  unfold bindFace withMesh
  simp only []
  cases h1 : modifyAt D.M_globalCFE f.firstAdjacentElementPosition fun g =>
      g.setQuadratureRule ((D.M_qrAdapter.update f.firstAdjacentElementIdentity
        f.firstAdjacentElementPosition).adaptedBdQR f.firstAdjacentElementPosition) with
  | error x => rfl
  | ok a1 =>
    cases h2 : modifyAt D.M_testCFE f.firstAdjacentElementPosition fun t =>
        t.setQuadratureRule ((D.M_qrAdapter.update f.firstAdjacentElementIdentity
          f.firstAdjacentElementPosition).adaptedBdQR f.firstAdjacentElementPosition) with
    | error x => rfl
    | ok a2 =>
      simp only [Except.bind]
      cases h3 : modifyAt a1 f.firstAdjacentElementPosition fun g =>
          g.update G f.firstAdjacentElementIdentity with
      | error x => rfl
      | ok a3 =>
        simp only []
        cases h4 : modifyAt a2 f.firstAdjacentElementPosition fun t =>
            t.update f.firstAdjacentElementIdentity D.M_evaluation.M_expression.S_testUpdateFlag with
        | error x => rfl
        | ok a4 => rfl

theorem processFace_withMesh {R : Type} [Semiring R] (G : GeometricMap R)
    (D : IntegrateVectorFaceIDLSAdapted R) (m : Mesh) (v : Nat → R) (f : Face) :
    processFace G (withMesh D m, v) f =
      (processFace G (D, v) f).map (fun S => (withMesh S.1 m, S.2)) := by
  unfold processFace
  simp only [bindFace_withMesh]
  cases h1 : bindFace G D f with
  | error x => rfl
  | ok E =>
    simp only [Except.map, Except.bind]
    have h2 : assembleBlocks (withMesh E m) f.firstAdjacentElementPosition
        f.firstAdjacentElementIdentity (withMesh E m).M_elementalVector =
        assembleBlocks E f.firstAdjacentElementPosition f.firstAdjacentElementIdentity
          E.M_elementalVector := rfl
    rw [h2]
    cases h3 : assembleBlocks E f.firstAdjacentElementPosition f.firstAdjacentElementIdentity
        E.M_elementalVector with
    | error x => rfl
    | ok V => rfl

theorem faceStep_withMesh {R : Type} [Semiring R] (G : GeometricMap R)
    (D : IntegrateVectorFaceIDLSAdapted R) (m : Mesh) (v : Nat → R) (f : Face) :
    faceStep G (withMesh D m, v) f =
      (faceStep G (D, v) f).map (fun S => (withMesh S.1 m, S.2)) := by
  unfold faceStep
  by_cases h : f.markerID = D.M_boundaryId
  · have h2 : ¬ f.markerID ≠ (withMesh D m, v).1.M_boundaryId := fun hc => hc h
    have h3 : ¬ f.markerID ≠ (D, v).1.M_boundaryId := fun hc => hc h
    rw [if_neg h2, if_neg h3]
    exact processFace_withMesh G D m v f
  · have h2 : f.markerID ≠ (withMesh D m, v).1.M_boundaryId := h
    have h3 : f.markerID ≠ (D, v).1.M_boundaryId := h
    rw [if_pos h2, if_pos h3]
    rfl

theorem foldlM_faceStep_withMesh {R : Type} [Semiring R] (G : GeometricMap R)
    (faces : List Face) (D : IntegrateVectorFaceIDLSAdapted R) (m : Mesh) (v : Nat → R) :
    producedVector (faces.foldlM (faceStep G) (withMesh D m, v)) =
      producedVector (faces.foldlM (faceStep G) (D, v)) := by
  induction faces generalizing D v with
  | nil => rfl
  | cons f l ih =>
    have hw := faceStep_withMesh G D m v f
    cases h : faceStep G (D, v) f with
    | error x =>
      rw [h] at hw
      rw [foldlM_faceStep_error G l f _ x h, foldlM_faceStep_error G l f _ x hw]
    | ok S =>
      rw [h] at hw
      rw [foldlM_faceStep_ok G l f _ _ h, foldlM_faceStep_ok G l f _ _ hw]
      exact ih S.1 S.2

theorem bindFace_boundaryId {R : Type} [Zero R] (G : GeometricMap R)
    (D E : IntegrateVectorFaceIDLSAdapted R) (f : Face) (h : bindFace G D f = .ok E) :
    E.M_boundaryId = D.M_boundaryId := by
  unfold bindFace at h
  simp only [] at h
  cases h1 : modifyAt D.M_globalCFE f.firstAdjacentElementPosition fun g =>
      g.setQuadratureRule ((D.M_qrAdapter.update f.firstAdjacentElementIdentity
        f.firstAdjacentElementPosition).adaptedBdQR f.firstAdjacentElementPosition) with
  | error x => rw [h1] at h; cases h
  | ok a1 =>
    rw [h1] at h
    cases h2 : modifyAt D.M_testCFE f.firstAdjacentElementPosition fun t =>
        t.setQuadratureRule ((D.M_qrAdapter.update f.firstAdjacentElementIdentity
          f.firstAdjacentElementPosition).adaptedBdQR f.firstAdjacentElementPosition) with
    | error x => rw [h2] at h; cases h
    | ok a2 =>
      rw [h2] at h
      simp only [Except.bind] at h
      cases h3 : modifyAt a1 f.firstAdjacentElementPosition fun g =>
          g.update G f.firstAdjacentElementIdentity with
      | error x => rw [h3] at h; cases h
      | ok a3 =>
        rw [h3] at h
        simp only [] at h
        cases h4 : modifyAt a2 f.firstAdjacentElementPosition fun t =>
            t.update f.firstAdjacentElementIdentity D.M_evaluation.M_expression.S_testUpdateFlag with
        | error x => rw [h4] at h; cases h
        | ok a4 =>
          rw [h4] at h
          simp only [Except.ok.injEq] at h
          rw [← h]

theorem faceStep_boundaryId {R : Type} [Semiring R] (G : GeometricMap R)
    (S S1 : IntegrateVectorFaceIDLSAdapted R × (Nat → R)) (f : Face)
    (h : faceStep G S f = .ok S1) : S1.1.M_boundaryId = S.1.M_boundaryId := by
  unfold faceStep at h
  by_cases hm : f.markerID ≠ S.1.M_boundaryId
  · rw [if_pos hm] at h
    simp only [Except.ok.injEq] at h
    rw [h]
  · rw [if_neg hm] at h
    unfold processFace at h
    cases h1 : bindFace G S.1 f with
    | error x => rw [h1] at h; cases h
    | ok E =>
      rw [h1] at h
      simp only [Except.bind] at h
      cases h2 : assembleBlocks E f.firstAdjacentElementPosition f.firstAdjacentElementIdentity
          E.M_elementalVector with
      | error x => rw [h2] at h; cases h
      | ok V =>
        rw [h2] at h
        simp only [Except.ok.injEq] at h
        rw [← h]
        exact bindFace_boundaryId G S.1 E f h1

theorem foldlM_faceStep_filter {R : Type} [Semiring R] (G : GeometricMap R)
    (faces : List Face) (S : IntegrateVectorFaceIDLSAdapted R × (Nat → R)) :
    faces.foldlM (faceStep G) S =
      (faces.filter (fun f => f.markerID = S.1.M_boundaryId)).foldlM (faceStep G) S := by
  induction faces generalizing S with
  | nil => rfl
  | cons f l ih =>
    by_cases hm : f.markerID = S.1.M_boundaryId
    · have hf : (f :: l).filter (fun f => f.markerID = S.1.M_boundaryId) =
          f :: l.filter (fun f => f.markerID = S.1.M_boundaryId) := by
        simp [List.filter_cons, hm]
      rw [hf]
      cases h : faceStep G S f with
      | error x =>
        rw [foldlM_faceStep_error G _ f S x h, foldlM_faceStep_error G _ f S x h]
      | ok S1 =>
        rw [foldlM_faceStep_ok G _ f S S1 h, foldlM_faceStep_ok G _ f S S1 h, ih S1,
          faceStep_boundaryId G S S1 f h]
    · have hf : (f :: l).filter (fun f => f.markerID = S.1.M_boundaryId) =
          l.filter (fun f => f.markerID = S.1.M_boundaryId) := by
        simp [List.filter_cons, hm]
      have hstep : faceStep G S f = .ok S := by
        unfold faceStep
        rw [if_pos hm]
      rw [hf, foldlM_faceStep_ok G l f S S hstep]
      exact ih S

theorem addTo_eq_foldlM {R : Type} [Zero R] [Add R] [Mul R] (G : GeometricMap R)
    (D : IntegrateVectorFaceIDLSAdapted R) (v : Nat → R) :
    addTo G D v = D.M_mesh.bFaces.foldlM (faceStep G) (D, v) :=
  forLoop_readAt_eq_foldlM D.M_mesh.bFaces (faceStep G) (D, v)

theorem producedVector_addTo_withMesh {R : Type} [Semiring R] (G : GeometricMap R)
    (D : IntegrateVectorFaceIDLSAdapted R) (m : Mesh) (v : Nat → R) :
    producedVector (addTo G (withMesh D m) v) =
      producedVector ((m.restrict D.M_boundaryId).bFaces.foldlM (faceStep G) (D, v)) := by
  rw [addTo_eq_foldlM]
  rw [show (withMesh D m).M_mesh.bFaces = m.bFaces from rfl, foldlM_faceStep_withMesh,
    foldlM_faceStep_filter]
  rfl

theorem addTo_closed_form {R : Type} [Semiring R] (G : GeometricMap R)
    (D : IntegrateVectorFaceIDLSAdapted R) (v : Nat → R) (hD : WellFormed D)
    (hs : SlotsBelow4 D.M_mesh.bFaces D.M_boundaryId) :
    ∃ D1 v1, addTo G D v = .ok (D1, v1) ∧ WellFormed D1 ∧ D1.config = D.config ∧
      ∀ r, v1 r = v r + D.config.facesSum G D.M_mesh.bFaces r := by
  rw [addTo_eq_foldlM]
  exact foldlM_faceStep_eq G D.M_mesh.bFaces D v hD hs

/-! ## The claims -/

/-- C2: the vector `addTo` produces is the one it produces on the mesh restricted to the
faces carrying the marker, and two meshes with the same faces carrying the marker (faces
with another marker inserted, removed or altered at will) yield the same vector; this
holds for every driver state, faults included. -/
theorem addTo_marker_filtering {R : Type} [Semiring R] (G : GeometricMap R)
    (D : IntegrateVectorFaceIDLSAdapted R) (v : Nat → R) :
    producedVector (addTo G D v) =
        producedVector (addTo G (withMesh D (D.M_mesh.restrict D.M_boundaryId)) v) ∧
      ∀ m : Mesh, m.restrict D.M_boundaryId = D.M_mesh.restrict D.M_boundaryId →
        producedVector (addTo G (withMesh D m) v) = producedVector (addTo G D v) := by
  have key : ∀ m : Mesh, m.restrict D.M_boundaryId = D.M_mesh.restrict D.M_boundaryId →
      producedVector (addTo G (withMesh D m) v) = producedVector (addTo G D v) := by
    intro m hm
    have h1 := producedVector_addTo_withMesh G D m v
    have h2 := producedVector_addTo_withMesh G D D.M_mesh v
    rw [hm] at h1
    rw [h1, ← h2]
    rfl
  refine ⟨(key (D.M_mesh.restrict D.M_boundaryId) ?_).symm, key⟩
  simp [Mesh.restrict, List.filter_filter]

/-- Witness of C2: the sample mesh and a mesh with other faces of another marker. -/
theorem addTo_marker_filtering_witness :
    (⟨[⟨7, 2, 0⟩, ⟨1, 0, 0⟩, ⟨7, 2, 1⟩, ⟨7, 0, 3⟩, ⟨2, 6, 6⟩]⟩ : Mesh).restrict 7 =
        sampleMesh.restrict 7 ∧
      producedVector (addTo sampleGeometry
          (withMesh sampleDriver ⟨[⟨7, 2, 0⟩, ⟨1, 0, 0⟩, ⟨7, 2, 1⟩, ⟨7, 0, 3⟩, ⟨2, 6, 6⟩]⟩)
          zeroVector) =
        producedVector (addTo sampleGeometry sampleDriver zeroVector) :=
  ⟨by decide, (addTo_marker_filtering sampleGeometry sampleDriver zeroVector).2 _ (by decide)⟩

/-- C3: on a well-formed driver, `addTo` called on the all-zero vector and then called again
on the result succeeds both times, and every entry after the second call is exactly twice
the entry after the first. -/
theorem addTo_twice {R : Type} [Semiring R] (G : GeometricMap R)
    (D : IntegrateVectorFaceIDLSAdapted R) (hD : WellFormed D)
    (hs : SlotsBelow4 D.M_mesh.bFaces D.M_boundaryId) :
    ∃ D1 v1 D2 v2, addTo G D (fun _ => 0) = .ok (D1, v1) ∧ addTo G D1 v1 = .ok (D2, v2) ∧
      ∀ r, v2 r = 2 * v1 r := by
  obtain ⟨D1, v1, h1, hD1, hc, h4⟩ := addTo_closed_form G D (fun _ => 0) hD hs
  have hmesh : D1.M_mesh = D.M_mesh := congrArg Config.mesh hc
  have hid : D1.M_boundaryId = D.M_boundaryId := congrArg Config.boundaryId hc
  obtain ⟨D2, v2, h5, _, _, h8⟩ := addTo_closed_form G D1 v1 hD1 (by rw [hmesh, hid]; exact hs)
  refine ⟨D1, v1, D2, v2, h1, h5, ?_⟩
  intro r
  rw [h8 r, hc, hmesh, h4 r, zero_add, two_mul]

/-- Witness of C3 on the sample driver. -/
theorem addTo_twice_witness :
    WellFormed sampleDriver ∧
      ∃ D1 v1 D2 v2, addTo sampleGeometry sampleDriver (fun _ => 0) = .ok (D1, v1) ∧
        addTo sampleGeometry D1 v1 = .ok (D2, v2) ∧ ∀ r, v2 r = 2 * v1 r :=
  ⟨by decide, addTo_twice sampleGeometry sampleDriver (by decide) (by decide)⟩

/-- C4: when no boundary face carries the configured marker (an empty mesh included),
`addTo` succeeds and returns the driver and the global vector exactly as they were: no
face is processed, so neither the adapter, nor an evaluator, nor the elemental vector, nor
the global vector is touched. -/
theorem addTo_no_matching_face {R : Type} [Semiring R] (G : GeometricMap R)
    (D : IntegrateVectorFaceIDLSAdapted R) (v : Nat → R)
    (h : ∀ f ∈ D.M_mesh.bFaces, f.markerID ≠ D.M_boundaryId) :
    addTo G D v = .ok (D, v) := by
  rw [addTo_eq_foldlM]
  exact foldlM_faceStep_skip G D.M_mesh.bFaces (D, v) h

/-- Witness of C4: the sample data with marker 8, which no face carries. -/
theorem addTo_no_matching_face_witness :
    (∀ f ∈ sampleMesh.bFaces, f.markerID ≠ 8) ∧
      addTo sampleGeometry
          (IntegrateVectorFaceIDLSAdapted.new sampleMesh 8 sampleAdapter sampleSpace
            sampleExpression) zeroVector =
        .ok (IntegrateVectorFaceIDLSAdapted.new sampleMesh 8 sampleAdapter sampleSpace
            sampleExpression, zeroVector) :=
  ⟨by decide, addTo_no_matching_face sampleGeometry
    (IntegrateVectorFaceIDLSAdapted.new sampleMesh 8 sampleAdapter sampleSpace sampleExpression)
    zeroVector (by decide)⟩

/-- C5: a face carrying the marker whose adapted rule for its slot has no quadrature point is
processed without fault; every pair it scatters has value zero and the global vector is left
entry-wise unchanged. -/
theorem degenerate_rule {R : Type} [Semiring R] (G : GeometricMap R)
    (D : IntegrateVectorFaceIDLSAdapted R) (v : Nat → R) (f : Face) (hD : WellFormed D)
    (hm : f.markerID = D.M_boundaryId) (hs : f.firstAdjacentElementPosition < 4)
    (hq : ((D.M_qrAdapter.update f.firstAdjacentElementIdentity
      f.firstAdjacentElementPosition).adaptedBdQR f.firstAdjacentElementPosition).nbQuadPt = 0) :
    ∃ D1 v1, faceStep G (D, v) f = .ok (D1, v1) ∧
      (∀ p ∈ D1.M_elementalVector.pairs, p.2 = 0) ∧ ∀ r, v1 r = v r := by
  have hstep : faceStep G (D, v) f =
      .ok (faceState G D f.firstAdjacentElementIdentity f.firstAdjacentElementPosition,
        (D.config.faceVector G f.firstAdjacentElementIdentity f.firstAdjacentElementPosition
          D.M_elementalVector).pushToGlobal v) := by
    unfold faceStep
    have h2 : ¬ f.markerID ≠ (D, v).1.M_boundaryId := fun hc => hc hm
    rw [if_neg h2]
    exact processFace_eq G D v f hD hs
  have hnq : D.config.nq f.firstAdjacentElementIdentity f.firstAdjacentElementPosition = 0 := hq
  have hamount : ∀ k, D.config.amount G f.firstAdjacentElementIdentity
      f.firstAdjacentElementPosition k = 0 := by
    intro k
    simp [Config.amount, hnq]
  have hdata : ∀ k, (D.config.faceVector G f.firstAdjacentElementIdentity
      f.firstAdjacentElementPosition D.M_elementalVector).M_rawData k = 0 := by
    intro k
    simp [Config.faceVector, Config.pairAt, hamount]
  refine ⟨_, _, hstep, ?_, ?_⟩
  · intro p hp
    simp only [faceState, ETVectorElemental.pairs, List.mem_map, List.mem_range] at hp
    obtain ⟨k, _, hk⟩ := hp
    rw [← hk]
    exact hdata k
  · intro r
    rw [pushToGlobal_apply]
    simp [hdata]

/-- Witness of C5: the face of element 3 at slot 0 of the sample mesh has an empty rule. -/
theorem degenerate_rule_witness :
    WellFormed sampleDriver ∧ (sampleDriver.config.nq 3 0 = 0) ∧
      ∃ D1 v1, faceStep sampleGeometry (sampleDriver, zeroVector) ⟨7, 0, 3⟩ = .ok (D1, v1) ∧
        (∀ p ∈ D1.M_elementalVector.pairs, p.2 = 0) ∧ ∀ r, v1 r = zeroVector r :=
  ⟨by decide, by decide,
    degenerate_rule sampleGeometry sampleDriver zeroVector ⟨7, 0, 3⟩ (by decide) (by decide)
      (by decide) (by decide)⟩

/-! ## Only the assertion reports an empty vector -/

theorem bind_ne_emptyVector {α β : Type} (x : Except Fault α) (f : α → Except Fault β)
    (hx : x ≠ .error .emptyVector) (hf : ∀ a, f a ≠ .error .emptyVector) :
    x.bind f ≠ .error .emptyVector := by
  cases x with
  | error e =>
    intro h
    simp only [Except.bind, Except.error.injEq] at h
    exact hx (by rw [h])
  | ok a => exact hf a

theorem forLoop_ne_emptyVector {σ : Type} (n : Nat) (body : Nat → σ → Except Fault σ)
    (init : σ) (hb : ∀ i s, body i s ≠ .error .emptyVector) :
    forLoop n body init ≠ .error .emptyVector := by
  induction n with
  | zero => intro h; cases h
  | succ n ih => exact bind_ne_emptyVector _ _ ih (hb n)

theorem foldlM_ne_emptyVector {α σ : Type} (l : List α) (step : σ → α → Except Fault σ)
    (init : σ) (hb : ∀ s a, step s a ≠ .error .emptyVector) :
    l.foldlM step init ≠ .error .emptyVector := by
  induction l generalizing init with
  | nil => intro h; cases h
  | cons a l ih =>
    rw [List.foldlM_cons]
    exact bind_ne_emptyVector _ _ (hb init a) (fun s => ih s)

theorem modifyAt_ne_emptyVector {α : Type} (xs : List α) (i : Nat) (f : α → α) :
    modifyAt xs i f ≠ .error .emptyVector := by
  unfold modifyAt
  cases xs[i]? with
  | none => intro h; cases h
  | some a => intro h; cases h

theorem readAt_ne_emptyVector {α : Type} (xs : List α) (i : Nat) :
    readAt xs i ≠ .error .emptyVector := by
  unfold readAt
  cases xs[i]? with
  | none => intro h; cases h
  | some a => intro h; cases h

theorem deref_ne_emptyVector {α : Type} (xs : List α) (p : CFEPtr) :
    deref xs p ≠ .error .emptyVector := by
  cases p with
  | null => intro h; cases h
  | own s => exact readAt_ne_emptyVector xs s
  | foreign s => intro h; cases h

theorem setRowIndex_ne_emptyVector {R : Type} (V : ETVectorElemental R) (i g : Nat) :
    V.setRowIndex i g ≠ .error .emptyVector := by
  unfold ETVectorElemental.setRowIndex
  split
  · intro h; cases h
  · intro h; cases h

theorem addElement_ne_emptyVector {R : Type} [Add R] (V : ETVectorElemental R) (i : Nat) (x : R) :
    V.addElement i x ≠ .error .emptyVector := by
  unfold ETVectorElemental.addElement
  split
  · intro h; cases h
  · intro h; cases h

theorem value_qi_ne_emptyVector {R : Type} (D : IntegrateVectorFaceIDLSAdapted R) (q k : Nat) :
    value_qi D q k ≠ .error .emptyVector := by
  unfold value_qi
  refine bind_ne_emptyVector _ _ (deref_ne_emptyVector _ _) (fun g => ?_)
  refine bind_ne_emptyVector _ _ (deref_ne_emptyVector _ _) (fun t => ?_)
  intro h; cases h

theorem bindFace_ne_emptyVector {R : Type} [Zero R] (G : GeometricMap R)
    (D : IntegrateVectorFaceIDLSAdapted R) (f : Face) :
    bindFace G D f ≠ .error .emptyVector := by
  unfold bindFace
  refine bind_ne_emptyVector _ _ (modifyAt_ne_emptyVector _ _ _) (fun a1 => ?_)
  refine bind_ne_emptyVector _ _ (modifyAt_ne_emptyVector _ _ _) (fun a2 => ?_)
  refine bind_ne_emptyVector _ _ (modifyAt_ne_emptyVector _ _ _) (fun a3 => ?_)
  refine bind_ne_emptyVector _ _ (modifyAt_ne_emptyVector _ _ _) (fun a4 => ?_)
  intro h; cases h

theorem assembleBlocks_ne_emptyVector {R : Type} [Add R] [Mul R]
    (D : IntegrateVectorFaceIDLSAdapted R) (s e : Nat) (V : ETVectorElemental R) :
    assembleBlocks D s e V ≠ .error .emptyVector := by
  unfold assembleBlocks
  refine forLoop_ne_emptyVector _ _ _ (fun b W => ?_)
  refine bind_ne_emptyVector _ _ ?_ (fun W1 => ?_)
  · unfold setRowIndices
    exact forLoop_ne_emptyVector _ _ _ (fun i W2 => setRowIndex_ne_emptyVector _ _ _)
  · refine forLoop_ne_emptyVector _ _ _ (fun q W2 => ?_)
    unfold accumulatePoint
    refine forLoop_ne_emptyVector _ _ _ (fun i W3 => ?_)
    refine bind_ne_emptyVector _ _ (value_qi_ne_emptyVector _ _ _) (fun val => ?_)
    refine bind_ne_emptyVector _ _ (readAt_ne_emptyVector _ _) (fun g => ?_)
    exact addElement_ne_emptyVector _ _ _

theorem addTo_ne_emptyVector {R : Type} [Zero R] [Add R] [Mul R] (G : GeometricMap R)
    (D : IntegrateVectorFaceIDLSAdapted R) (v : Nat → R) :
    addTo G D v ≠ .error .emptyVector := by
  rw [addTo_eq_foldlM]
  refine foldlM_ne_emptyVector _ _ _ (fun S f => ?_)
  unfold faceStep
  split
  · intro h; cases h
  · unfold processFace
    refine bind_ne_emptyVector _ _ (bindFace_ne_emptyVector _ _ _) (fun E => ?_)
    refine bind_ne_emptyVector _ _ (assembleBlocks_ne_emptyVector _ _ _ _) (fun V => ?_)
    intro h; cases h

/-- C6: through the shared-pointer overload of `addTo`, and through `operator>>` on a shared
pointer, the assertion fault is raised exactly when the pointer is null, and then the call
returns that fault and no state (no face is processed); on a pointer to a vector the result
is that of `addTo` on the vector. -/
theorem addToPtr_null_iff {R : Type} [Zero R] [Add R] [Mul R] (G : GeometricMap R)
    (D : IntegrateVectorFaceIDLSAdapted R) (p : Option (Nat → R)) :
    (addToPtr G D p = .error .emptyVector ↔ p = none) ∧
      (shiftIntoPtr G D p = .error .emptyVector ↔ p = none) ∧
      (∀ v, addToPtr G D (some v) = addTo G D v) ∧
      (∀ v, shiftIntoPtr G D (some v) = addTo G D v) ∧
      (∀ v, shiftInto G D v = addTo G D v) := by
  have hsome : ∀ v, addToPtr G D (some v) = addTo G D v := fun v => rfl
  have hiff : addToPtr G D p = .error .emptyVector ↔ p = none := by
    cases p with
    | none => exact ⟨fun _ => rfl, fun _ => rfl⟩
    | some v =>
      rw [hsome v]
      exact ⟨fun h => absurd h (addTo_ne_emptyVector G D v), fun h => by cases h⟩
  exact ⟨hiff, hiff, hsome, hsome, fun v => rfl⟩

theorem facesSum_perm {R : Type} [Semiring R] (G : GeometricMap R) (C : Config R)
    (l1 l2 : List Face) (hp : l1.Perm l2) (r : Nat) :
    C.facesSum G l1 r = C.facesSum G l2 r := by
  unfold Config.facesSum
  exact ((hp.filter _).map _).sum_eq

theorem faceStep_closed_form {R : Type} [Semiring R] (G : GeometricMap R)
    (D : IntegrateVectorFaceIDLSAdapted R) (v : Nat → R) (f : Face) (hD : WellFormed D)
    (hm : f.markerID = D.M_boundaryId) (hs : f.firstAdjacentElementPosition < 4) :
    ∃ D1 v1, faceStep G (D, v) f = .ok (D1, v1) ∧ WellFormed D1 ∧ D1.config = D.config ∧
      D1.M_elementalVector.pairs =
        D.config.facePairs G f.firstAdjacentElementIdentity f.firstAdjacentElementPosition ∧
      ∀ r, v1 r = v r + D.config.faceSum G f r := by
  have hstep : faceStep G (D, v) f =
      .ok (faceState G D f.firstAdjacentElementIdentity f.firstAdjacentElementPosition,
        (D.config.faceVector G f.firstAdjacentElementIdentity f.firstAdjacentElementPosition
          D.M_elementalVector).pushToGlobal v) := by
    unfold faceStep
    have h2 : ¬ f.markerID ≠ (D, v).1.M_boundaryId := fun hc => hc hm
    rw [if_neg h2]
    exact processFace_eq G D v f hD hs
  refine ⟨_, _, hstep, wellFormed_faceState G D _ _ hD, config_faceState G D _ _, ?_, ?_⟩
  · have hN : D.M_elementalVector.M_nbRow =
        D.config.testSpace.field_dim * D.config.testSpace.nbDof := hD.2.2
    simp only [faceState, ETVectorElemental.pairs, Config.faceVector, Config.facePairs, hN]
    apply List.map_congr_left
    intro k hk
    have hk2 := List.mem_range.mp hk
    simp only [if_pos hk2]
  · intro r
    rw [pushToGlobal_faceVector G D.config _ _ _ hD.2.2 v r, faceSum_congr]

/-- C7: for a well-formed driver and any permutation of the boundary-face storage order,
`addTo` succeeds on both orders and produces the same vector; and from whatever well-formed
state of the same configuration a face carrying the marker is processed, what it adds to
the vector is the same function of (element, slot). -/
theorem addTo_order_independent {R : Type} [Semiring R] (G : GeometricMap R)
    (D : IntegrateVectorFaceIDLSAdapted R) (v : Nat → R) (m : Mesh) (hD : WellFormed D)
    (hs : SlotsBelow4 D.M_mesh.bFaces D.M_boundaryId) (hp : D.M_mesh.bFaces.Perm m.bFaces) :
    (∃ D1 D2 v1, addTo G D v = .ok (D1, v1) ∧ addTo G (withMesh D m) v = .ok (D2, v1)) ∧
      ∀ (E : IntegrateVectorFaceIDLSAdapted R) (w : Nat → R) (f : Face), WellFormed E →
        E.config = D.config → f.markerID = D.M_boundaryId → f.firstAdjacentElementPosition < 4 →
        ∃ E1 w1, faceStep G (E, w) f = .ok (E1, w1) ∧ ∀ r, w1 r = w r + D.config.faceSum G f r := by
  constructor
  · obtain ⟨D1, v1, h1, _, _, h4⟩ := addTo_closed_form G D v hD hs
    have hs2 : SlotsBelow4 (withMesh D m).M_mesh.bFaces (withMesh D m).M_boundaryId :=
      fun f hf hm => hs f (hp.symm.subset hf) hm
    obtain ⟨D2, v2, h5, _, _, h8⟩ := addTo_closed_form G (withMesh D m) v hD hs2
    have hv : v2 = v1 := by
      funext r
      rw [h8 r, h4 r]
      exact congrArg (fun x => v r + x) (facesSum_perm G D.config _ _ hp.symm r)
    rw [hv] at h5
    exact ⟨D1, D2, v1, h1, h5⟩
  · intro E w f hE hc hm hslot
    have hid : E.M_boundaryId = D.M_boundaryId := congrArg Config.boundaryId hc
    obtain ⟨E1, w1, h1, _, _, _, h5⟩ := faceStep_closed_form G E w f hE (hm.trans hid.symm) hslot
    refine ⟨E1, w1, h1, ?_⟩
    intro r
    rw [h5 r, hc]

/-- Witness of C7: the sample mesh and a reordering of it. -/
theorem addTo_order_independent_witness :
    WellFormed sampleDriver ∧
      sampleDriver.M_mesh.bFaces.Perm
        (⟨[⟨7, 0, 3⟩, ⟨7, 2, 1⟩, ⟨3, 9, 1⟩, ⟨7, 2, 0⟩]⟩ : Mesh).bFaces ∧
      ∃ D1 D2 v1, addTo sampleGeometry sampleDriver zeroVector = .ok (D1, v1) ∧
        addTo sampleGeometry (withMesh sampleDriver ⟨[⟨7, 0, 3⟩, ⟨7, 2, 1⟩, ⟨3, 9, 1⟩, ⟨7, 2, 0⟩]⟩)
          zeroVector = .ok (D2, v1) :=
  ⟨by decide, by decide,
    (addTo_order_independent sampleGeometry sampleDriver zeroVector
      ⟨[⟨7, 0, 3⟩, ⟨7, 2, 1⟩, ⟨3, 9, 1⟩, ⟨7, 2, 0⟩]⟩ (by decide) (by decide) (by decide)).1⟩

/-! ## Local indices -/

theorem block_index {fd m b i : Nat} (hb : b < fd) (hi : i < m) :
    i + b * m < fd * m ∧ (i + b * m) / m = b ∧ (i + b * m) % m = i := by
  have hlt : i + b * m < fd * m := by
    calc i + b * m < m + b * m := by omega
      _ = (b + 1) * m := by rw [Nat.succ_mul, Nat.add_comm]
      _ ≤ fd * m := Nat.mul_le_mul_right _ hb
  have hpos : 0 < m := by omega
  refine ⟨hlt, ?_, ?_⟩
  · rw [Nat.add_mul_div_right _ _ hpos, Nat.div_eq_of_lt hi, Nat.zero_add]
  · rw [Nat.add_mul_mod_self_right, Nat.mod_eq_of_lt hi]

theorem wellFormed_new {R : Type} [Zero R] (mesh : Mesh) (boundaryID : Nat)
    (quadratureBD : LevelSetBDQRAdapter R) (testSpace : TestSpace) (expression : Expression R) :
    WellFormed (IntegrateVectorFaceIDLSAdapted.new mesh boundaryID quadratureBD testSpace
      expression) := by
  refine ⟨?_, ?_, ?_⟩
  · simp [IntegrateVectorFaceIDLSAdapted.new, constructBody]
  · simp [IntegrateVectorFaceIDLSAdapted.new, constructBody]
  · rfl

theorem wellFormed_copy {R : Type} [Zero R] (integrator : IntegrateVectorFaceIDLSAdapted R)
    (h : WellFormed integrator) : WellFormed integrator.copy := by
  refine ⟨?_, ?_, h.2.2⟩
  · simp [IntegrateVectorFaceIDLSAdapted.copy, constructBody]
  · simp [IntegrateVectorFaceIDLSAdapted.copy, constructBody]

/-- C8: on a well-formed driver (elemental vector of `field_dim * nbDof` rows, four
evaluators of each kind) every local index `i + iblock * nbDof` with `iblock < field_dim`
and `i < nbDof` is below the size of the elemental vector, so `setRowIndex` and `element`
succeed on it; every index below `field_dim * nbDof` is hit by exactly one pair
(iblock, i); processing a face at a slot below 4 succeeds and leaves at each local index the
row index assigned for that face, whatever row indices were there before; and the reads of
the evaluator arrays at a slot below 4 are in range. -/
theorem local_index_validity {R : Type} [Semiring R] (G : GeometricMap R)
    (D : IntegrateVectorFaceIDLSAdapted R) (hD : WellFormed D) :
    (∀ b i, b < D.M_testSpace.field_dim → i < D.M_testSpace.nbDof →
        i + b * D.M_testSpace.nbDof < D.M_elementalVector.M_nbRow ∧
        (∀ g, ∃ V, D.M_elementalVector.setRowIndex (i + b * D.M_testSpace.nbDof) g = .ok V) ∧
        (∀ x, ∃ V, D.M_elementalVector.addElement (i + b * D.M_testSpace.nbDof) x = .ok V)) ∧
      (∀ k, k < D.M_testSpace.field_dim * D.M_testSpace.nbDof →
        ∃! p : Nat × Nat, p.1 < D.M_testSpace.field_dim ∧ p.2 < D.M_testSpace.nbDof ∧
          p.2 + p.1 * D.M_testSpace.nbDof = k) ∧
      (∀ (f : Face) (v : Nat → R), f.firstAdjacentElementPosition < 4 →
        ∃ D1 v1, processFace G (D, v) f = .ok (D1, v1) ∧
          D1.M_elementalVector.M_nbRow = D.M_testSpace.field_dim * D.M_testSpace.nbDof ∧
          ∀ b i, b < D.M_testSpace.field_dim → i < D.M_testSpace.nbDof →
            D1.M_elementalVector.M_rowIndices (i + b * D.M_testSpace.nbDof) =
              wrapUInt (D.M_testSpace.localToGlobalMap f.firstAdjacentElementIdentity i +
                b * D.M_testSpace.numTotalDof)) ∧
      (∀ s, s < 4 → (∃ g, readAt D.M_globalCFE s = .ok g) ∧ ∃ t, readAt D.M_testCFE s = .ok t) := by
  obtain ⟨h1, h2, h3⟩ := hD
  refine ⟨?_, ?_, ?_, ?_⟩
  · intro b i hb hi
    have hlt : i + b * D.M_testSpace.nbDof < D.M_elementalVector.M_nbRow := by
      rw [h3]
      exact (block_index hb hi).1
    refine ⟨hlt, fun g => ?_, fun x => ?_⟩
    · exact ⟨_, by rw [ETVectorElemental.setRowIndex, if_pos hlt]⟩
    · exact ⟨_, by rw [ETVectorElemental.addElement, if_pos hlt]⟩
  · intro k hk
    have hpos : 0 < D.M_testSpace.nbDof := by
      by_contra hc
      have h0 : D.M_testSpace.nbDof = 0 := by omega
      rw [h0, Nat.mul_zero] at hk
      omega
    refine ⟨(k / D.M_testSpace.nbDof, k % D.M_testSpace.nbDof), ⟨?_, ?_, ?_⟩, ?_⟩
    · exact Nat.div_lt_of_lt_mul (by rw [Nat.mul_comm]; exact hk)
    · exact Nat.mod_lt _ hpos
    · rw [Nat.mul_comm]
      exact Nat.mod_add_div k D.M_testSpace.nbDof
    · rintro ⟨b, i⟩ ⟨hb, hi, hbi⟩
      obtain ⟨_, hd, hm⟩ := block_index hb hi
      simp only at hbi hb hi
      rw [← hbi, hd, hm]
  · intro f v hs
    refine ⟨_, _, processFace_eq G D v f ⟨h1, h2, h3⟩ hs, h3, ?_⟩
    intro b i hb hi
    obtain ⟨hlt, hd, hm⟩ := block_index hb hi
    have hlt2 : i + b * D.M_testSpace.nbDof <
        D.config.testSpace.field_dim * D.config.testSpace.nbDof := hlt
    simp only [faceState, Config.faceVector, if_pos hlt2, Config.pairAt, Config.globalRow]
    have e1 : D.config.testSpace = D.M_testSpace := rfl
    rw [e1, hd, hm]
  · intro s hs
    have hg : D.M_globalCFE[s]? = some (D.M_globalCFE[s]) := List.getElem?_eq_getElem (by omega)
    have ht : D.M_testCFE[s]? = some (D.M_testCFE[s]) := List.getElem?_eq_getElem (by omega)
    exact ⟨⟨_, readAt_of_some hg⟩, ⟨_, readAt_of_some ht⟩⟩

/-- Witness of C8 on the driver the full constructor builds from the sample data. -/
theorem local_index_validity_witness :
    WellFormed sampleDriver ∧
      (∀ b i, b < 2 → i < 3 → i + b * 3 < sampleDriver.M_elementalVector.M_nbRow) ∧
      ∃ g, readAt sampleDriver.M_globalCFE 3 = .ok g :=
  ⟨by decide,
    fun b i hb hi => ((local_index_validity sampleGeometry sampleDriver (by decide)).1 b i hb hi).1,
    ((local_index_validity sampleGeometry sampleDriver (by decide)).2.2.2 3 (by decide)).1⟩

theorem processFace_pairs {R : Type} [Semiring R] (G : GeometricMap R)
    (D : IntegrateVectorFaceIDLSAdapted R) (v : Nat → R) (f : Face) (hD : WellFormed D)
    (hs : f.firstAdjacentElementPosition < 4) :
    ∃ D1 v1, processFace G (D, v) f = .ok (D1, v1) ∧
      D1.M_elementalVector.pairs =
        D.config.facePairs G f.firstAdjacentElementIdentity f.firstAdjacentElementPosition := by
  refine ⟨_, _, processFace_eq G D v f hD hs, ?_⟩
  have hN : D.M_elementalVector.M_nbRow =
      D.config.testSpace.field_dim * D.config.testSpace.nbDof := hD.2.2
  simp only [faceState, ETVectorElemental.pairs, Config.faceVector, Config.facePairs, hN]
  apply List.map_congr_left
  intro k hk
  have hk2 := List.mem_range.mp hk
  simp only [if_pos hk2]

/-- C9: the (row index, value) pairs scattered for a face are a function of its adjacent
element and slot only: two well-formed drivers of the same configuration, whatever their
elemental vectors, adapter caches, evaluator states and evaluation-tree bindings, scatter
the same pairs for the face, namely the reference pairs of (element, slot); in particular
the state a whole earlier `addTo` pass leaves scatters the same pairs as the state before
it. -/
theorem slot_isolation {R : Type} [Semiring R] (G : GeometricMap R)
    (D1 D2 : IntegrateVectorFaceIDLSAdapted R) (v1 v2 : Nat → R) (f : Face)
    (h1 : WellFormed D1) (h2 : WellFormed D2) (hc : D1.config = D2.config)
    (hs : f.firstAdjacentElementPosition < 4) :
    (∃ E1 w1 E2 w2, processFace G (D1, v1) f = .ok (E1, w1) ∧
        processFace G (D2, v2) f = .ok (E2, w2) ∧
        E1.M_elementalVector.pairs = E2.M_elementalVector.pairs ∧
        E1.M_elementalVector.pairs =
          D1.config.facePairs G f.firstAdjacentElementIdentity f.firstAdjacentElementPosition) ∧
      (SlotsBelow4 D1.M_mesh.bFaces D1.M_boundaryId →
        ∃ D3 v3 E1 w1 E3 w3, addTo G D1 v1 = .ok (D3, v3) ∧
          processFace G (D1, v1) f = .ok (E1, w1) ∧ processFace G (D3, v3) f = .ok (E3, w3) ∧
          E3.M_elementalVector.pairs = E1.M_elementalVector.pairs) := by
  obtain ⟨E1, w1, hE1, hp1⟩ := processFace_pairs G D1 v1 f h1 hs
  constructor
  · obtain ⟨E2, w2, hE2, hp2⟩ := processFace_pairs G D2 v2 f h2 hs
    exact ⟨E1, w1, E2, w2, hE1, hE2, by rw [hp1, hp2, hc], hp1⟩
  · intro hslots
    obtain ⟨D3, v3, h3, hD3, hc3, _⟩ := addTo_closed_form G D1 v1 h1 hslots
    obtain ⟨E3, w3, hE3, hp3⟩ := processFace_pairs G D3 v3 f hD3 hs
    exact ⟨D3, v3, E1, w1, E3, w3, h3, hE1, hE3, by rw [hp1, hp3, hc3]⟩

/-- Witness of C9: the sample driver as constructed and in a later state, on the face of
element 1 at slot 2. -/
theorem slot_isolation_witness :
    WellFormed sampleDriver ∧ WellFormed sampleDriverLater ∧
      sampleDriver.config = sampleDriverLater.config ∧
      sampleDriver.M_evaluation.M_globalCFE ≠ sampleDriverLater.M_evaluation.M_globalCFE ∧
      sampleDriver.M_elementalVector.pairs ≠ sampleDriverLater.M_elementalVector.pairs ∧
      ∃ E1 w1 E2 w2, processFace sampleGeometry (sampleDriver, zeroVector) ⟨7, 2, 1⟩ = .ok (E1, w1) ∧
        processFace sampleGeometry (sampleDriverLater, zeroVector) ⟨7, 2, 1⟩ = .ok (E2, w2) ∧
        E1.M_elementalVector.pairs = E2.M_elementalVector.pairs ∧
        E1.M_elementalVector.pairs = sampleDriver.config.facePairs sampleGeometry 1 2 :=
  ⟨by decide, by decide, rfl, by decide, by decide,
    (slot_isolation sampleGeometry sampleDriver sampleDriverLater zeroVector zeroVector ⟨7, 2, 1⟩
      (by decide) (by decide) rfl (by decide)).1⟩

/-- C10: for a face at slot `s < 4` of element `e`, the binding steps of `addTo` succeed, and
in the state they leave the one rule `adaptedBdQR (s)` of the adapter updated for (e, s) is
the rule of geometric evaluator `s`, of basis evaluator `s` and of the evaluation tree, and
its point count bounds the quadrature loop; the tree points at the evaluators of slot `s`,
so `value_qi` and the weight are read from them; both evaluators record an update with
element `e` made under that rule; and the loop on the blocks changes none of this. -/
theorem rule_consistency {R : Type} [Semiring R] (G : GeometricMap R)
    (D : IntegrateVectorFaceIDLSAdapted R) (f : Face) (hD : WellFormed D)
    (hs : f.firstAdjacentElementPosition < 4) :
    ∃ D1 g t, bindFace G D f = .ok D1 ∧
      D1.M_qrAdapter = D.M_qrAdapter.update f.firstAdjacentElementIdentity
        f.firstAdjacentElementPosition ∧
      D1.M_globalCFE[f.firstAdjacentElementPosition]? = some g ∧
      D1.M_testCFE[f.firstAdjacentElementPosition]? = some t ∧
      g.M_quadratureRule = D1.M_qrAdapter.adaptedBdQR f.firstAdjacentElementPosition ∧
      t.M_quadratureRule = D1.M_qrAdapter.adaptedBdQR f.firstAdjacentElementPosition ∧
      D1.M_evaluation.M_quadrature =
        some (D1.M_qrAdapter.adaptedBdQR f.firstAdjacentElementPosition) ∧
      D1.M_evaluation.M_globalCFE = .own f.firstAdjacentElementPosition ∧
      D1.M_evaluation.M_testCFE = .own f.firstAdjacentElementPosition ∧
      D1.M_evaluation.M_element = some f.firstAdjacentElementIdentity ∧
      g.M_updated = some (D1.M_qrAdapter.adaptedBdQR f.firstAdjacentElementPosition,
        f.firstAdjacentElementIdentity) ∧
      t.M_updated = some (D1.M_qrAdapter.adaptedBdQR f.firstAdjacentElementPosition,
        f.firstAdjacentElementIdentity, D.M_evaluation.M_expression.S_testUpdateFlag) ∧
      g.M_wMeas = G.wMeas g.M_refTangents
        (D1.M_qrAdapter.adaptedBdQR f.firstAdjacentElementPosition)
        f.firstAdjacentElementIdentity ∧
      (∀ q k, value_qi D1 q k = .ok (D1.M_evaluation.M_expression.value_qi
        (some (D1.M_qrAdapter.adaptedBdQR f.firstAdjacentElementPosition))
        (some f.firstAdjacentElementIdentity) g t q k)) ∧
      readAt D1.M_globalCFE f.firstAdjacentElementPosition = .ok g ∧
      (∀ V, assembleBlocks D1 f.firstAdjacentElementPosition f.firstAdjacentElementIdentity V =
        forLoop D1.M_testSpace.field_dim (fun iblock W =>
          (setRowIndices D1 f.firstAdjacentElementIdentity iblock W).bind fun W =>
            forLoop g.M_quadratureRule.nbQuadPt
              (fun iQuadPt W => accumulatePoint D1 f.firstAdjacentElementPosition iblock iQuadPt W)
              W) V) ∧
      ∃ E v1, processFace G (D, fun _ => 0) f = .ok (E, v1) ∧
        E.M_qrAdapter = D1.M_qrAdapter ∧ E.M_globalCFE = D1.M_globalCFE ∧
        E.M_testCFE = D1.M_testCFE ∧ E.M_evaluation = D1.M_evaluation := by
  obtain ⟨h1, h2, h3⟩ := hD
  have hg : D.M_globalCFE[f.firstAdjacentElementPosition]? =
      some (D.M_globalCFE[f.firstAdjacentElementPosition]) :=
    List.getElem?_eq_getElem (by omega)
  have ht : D.M_testCFE[f.firstAdjacentElementPosition]? =
      some (D.M_testCFE[f.firstAdjacentElementPosition]) :=
    List.getElem?_eq_getElem (by omega)
  have hD : WellFormed D := ⟨h1, h2, h3⟩
  refine ⟨boundState G D f.firstAdjacentElementIdentity f.firstAdjacentElementPosition,
    D.config.globalCFE G f.firstAdjacentElementIdentity f.firstAdjacentElementPosition,
    D.config.testCFE f.firstAdjacentElementIdentity f.firstAdjacentElementPosition,
    bindFace_eq G D f hg ht, rfl, getElem?_set_self_of_some _ hg,
    getElem?_set_self_of_some _ ht, rfl, rfl, rfl, rfl, rfl, rfl, rfl, rfl, rfl, ?_, ?_, ?_, ?_⟩
  · intro q k
    exact value_qi_boundState G D _ _ q k hg ht
  · exact readAt_boundState G D _ _ hg
  · intro V
    rfl
  · exact ⟨_, _, processFace_eq G D _ f hD hs, rfl, rfl, rfl, rfl⟩

/-- Witness of C10: the sample driver on the face of element 1 at slot 2, whose rule has two
points. -/
theorem rule_consistency_witness :
    WellFormed sampleDriver ∧
      ∃ D1 g t, bindFace sampleGeometry sampleDriver ⟨7, 2, 1⟩ = .ok D1 ∧
        D1.M_globalCFE[2]? = some g ∧ D1.M_testCFE[2]? = some t ∧
        g.M_quadratureRule = D1.M_qrAdapter.adaptedBdQR 2 ∧
        t.M_quadratureRule = D1.M_qrAdapter.adaptedBdQR 2 ∧
        D1.M_evaluation.M_globalCFE = .own 2 ∧ D1.M_evaluation.M_testCFE = .own 2 :=
  ⟨by decide, by
    obtain ⟨D1, g, t, h1, _, h3, h4, h5, h6, _, h8, h9, _⟩ :=
      rule_consistency sampleGeometry sampleDriver ⟨7, 2, 1⟩ (by decide) (by decide)
    exact ⟨D1, g, t, h1, h3, h4, h5, h6, h8, h9⟩⟩

/-! ## The constructors -/

theorem refTangents_constructBody {R : Type} [Zero R] (D : IntegrateVectorFaceIDLSAdapted R) :
    (constructBody D).refTangents = [t0, t1, t2, t3] := by
  simp [IntegrateVectorFaceIDLSAdapted.refTangents, constructBody, List.range, List.range.loop,
    List.modify, List.modifyTailIdx, List.modifyHead, ETCurrentBDFE.setRefTangents,
    ETCurrentBDFE.new]

theorem spansTangentPlane_slots :
    SpansTangentPlane t0 (referenceNormal 0) ∧ SpansTangentPlane t1 (referenceNormal 1) ∧
      SpansTangentPlane t2 (referenceNormal 2) ∧ SpansTangentPlane t3 (referenceNormal 3) := by
  refine ⟨⟨_, _, rfl, ?_, ?_, ?_⟩, ⟨_, _, rfl, ?_, ?_, ?_⟩, ⟨_, _, rfl, ?_, ?_, ?_⟩,
    ⟨_, _, rfl, ?_, ?_, ?_⟩⟩ <;> decide

theorem modifyAt_map_eq {α β : Type} (p : α → β) {xs ys : List α} {i : Nat} {f : α → α}
    (h : modifyAt xs i f = .ok ys) (hp : ∀ a, p (f a) = p a) : ys.map p = xs.map p := by
  unfold modifyAt at h
  cases ha : xs[i]? with
  | none => rw [ha] at h; cases h
  | some a =>
    rw [ha] at h
    simp only [Except.ok.injEq] at h
    rw [← h]
    apply List.ext_getElem?
    intro j
    by_cases hj : i = j
    · subst hj
      have hi : i < xs.length := by
        by_contra hc
        rw [List.getElem?_eq_none (by omega)] at ha
        cases ha
      simp [List.getElem?_set, hi, List.getElem?_eq_getElem hi, hp]
      rw [List.getElem?_eq_getElem hi] at ha
      simp only [Option.some.injEq] at ha
      rw [ha]
    · simp [List.getElem?_set, hj]

theorem bindFace_refTangents {R : Type} [Zero R] (G : GeometricMap R)
    (D E : IntegrateVectorFaceIDLSAdapted R) (f : Face) (h : bindFace G D f = .ok E) :
    E.refTangents = D.refTangents := by
  unfold bindFace at h
  simp only [] at h
  cases h1 : modifyAt D.M_globalCFE f.firstAdjacentElementPosition fun g =>
      g.setQuadratureRule ((D.M_qrAdapter.update f.firstAdjacentElementIdentity
        f.firstAdjacentElementPosition).adaptedBdQR f.firstAdjacentElementPosition) with
  | error x => rw [h1] at h; cases h
  | ok a1 =>
    rw [h1] at h
    cases h2 : modifyAt D.M_testCFE f.firstAdjacentElementPosition fun t =>
        t.setQuadratureRule ((D.M_qrAdapter.update f.firstAdjacentElementIdentity
          f.firstAdjacentElementPosition).adaptedBdQR f.firstAdjacentElementPosition) with
    | error x => rw [h2] at h; cases h
    | ok a2 =>
      rw [h2] at h
      simp only [Except.bind] at h
      cases h3 : modifyAt a1 f.firstAdjacentElementPosition fun g =>
          g.update G f.firstAdjacentElementIdentity with
      | error x => rw [h3] at h; cases h
      | ok a3 =>
        rw [h3] at h
        simp only [] at h
        cases h4 : modifyAt a2 f.firstAdjacentElementPosition fun t =>
            t.update f.firstAdjacentElementIdentity D.M_evaluation.M_expression.S_testUpdateFlag with
        | error x => rw [h4] at h; cases h
        | ok a4 =>
          rw [h4] at h
          simp only [Except.ok.injEq] at h
          rw [← h]
          have e1 := modifyAt_map_eq (fun g : ETCurrentBDFE R => g.M_refTangents) h1 (fun _ => rfl)
          have e3 := modifyAt_map_eq (fun g : ETCurrentBDFE R => g.M_refTangents) h3 (fun _ => rfl)
          exact e3.trans e1

theorem faceStep_refTangents {R : Type} [Semiring R] (G : GeometricMap R)
    (S S1 : IntegrateVectorFaceIDLSAdapted R × (Nat → R)) (f : Face)
    (h : faceStep G S f = .ok S1) : S1.1.refTangents = S.1.refTangents := by
  unfold faceStep at h
  by_cases hm : f.markerID ≠ S.1.M_boundaryId
  · rw [if_pos hm] at h
    simp only [Except.ok.injEq] at h
    rw [h]
  · rw [if_neg hm] at h
    unfold processFace at h
    cases h1 : bindFace G S.1 f with
    | error x => rw [h1] at h; cases h
    | ok E =>
      rw [h1] at h
      simp only [Except.bind] at h
      cases h2 : assembleBlocks E f.firstAdjacentElementPosition f.firstAdjacentElementIdentity
          E.M_elementalVector with
      | error x => rw [h2] at h; cases h
      | ok V =>
        rw [h2] at h
        simp only [Except.ok.injEq] at h
        rw [← h]
        exact bindFace_refTangents G S.1 E f h1

theorem addTo_refTangents {R : Type} [Semiring R] (G : GeometricMap R)
    (D D1 : IntegrateVectorFaceIDLSAdapted R) (v v1 : Nat → R)
    (h : addTo G D v = .ok (D1, v1)) : D1.refTangents = D.refTangents := by
  rw [addTo_eq_foldlM] at h
  have key : ∀ (l : List Face) (S S1 : IntegrateVectorFaceIDLSAdapted R × (Nat → R)),
      l.foldlM (faceStep G) S = .ok S1 → S1.1.refTangents = S.1.refTangents := by
    intro l
    induction l with
    | nil =>
      intro S S1 hl
      simp only [List.foldlM_nil, pure, Except.pure, Except.ok.injEq] at hl
      rw [hl]
    | cons f l ih =>
      intro S S1 hl
      cases hf : faceStep G S f with
      | error x =>
        rw [foldlM_faceStep_error G l f S x hf] at hl
        cases hl
      | ok S2 =>
        rw [foldlM_faceStep_ok G l f S S2 hf] at hl
        exact (ih S2 S1 hl).trans (faceStep_refTangents G S S2 f hf)
  exact key _ _ _ h

/-- C11: the pairs of integer vectors the constructors give the geometric evaluators of slots
0, 1, 2, 3 are each two linearly independent vectors (non-zero cross product) orthogonal to
the normal of that face of the reference tetrahedron; the full-data constructor and the
copy constructor assign the same four pairs, whatever their arguments; and a pass of
`addTo` that returns leaves the pairs of every evaluator as they were. -/
theorem reference_tangents {R : Type} [Semiring R] :
    (∀ (mesh : Mesh) (boundaryID : Nat) (quadratureBD : LevelSetBDQRAdapter R)
        (testSpace : TestSpace) (expression : Expression R) (s : Nat), s < 4 →
        ∃ g, (IntegrateVectorFaceIDLSAdapted.new mesh boundaryID quadratureBD testSpace
            expression).M_globalCFE[s]? = some g ∧
          SpansTangentPlane g.M_refTangents (referenceNormal s)) ∧
      (∀ (mesh : Mesh) (boundaryID : Nat) (quadratureBD : LevelSetBDQRAdapter R)
        (testSpace : TestSpace) (expression : Expression R),
        (IntegrateVectorFaceIDLSAdapted.new mesh boundaryID quadratureBD testSpace
          expression).refTangents = [t0, t1, t2, t3]) ∧
      (∀ integrator : IntegrateVectorFaceIDLSAdapted R,
        integrator.copy.refTangents = [t0, t1, t2, t3]) ∧
      (∀ (G : GeometricMap R) (D D1 : IntegrateVectorFaceIDLSAdapted R) (v v1 : Nat → R),
        addTo G D v = .ok (D1, v1) → D1.refTangents = D.refTangents) := by
  have hnew : ∀ (mesh : Mesh) (boundaryID : Nat) (quadratureBD : LevelSetBDQRAdapter R)
      (testSpace : TestSpace) (expression : Expression R),
      (IntegrateVectorFaceIDLSAdapted.new mesh boundaryID quadratureBD testSpace
        expression).refTangents = [t0, t1, t2, t3] :=
    fun _ _ _ _ _ => refTangents_constructBody _
  refine ⟨?_, hnew, fun integrator => refTangents_constructBody _, addTo_refTangents⟩
  intro mesh boundaryID quadratureBD testSpace expression s hs
  have h := hnew mesh boundaryID quadratureBD testSpace expression
  have hlen := (wellFormed_new mesh boundaryID quadratureBD testSpace expression).1
  have hg : (IntegrateVectorFaceIDLSAdapted.new mesh boundaryID quadratureBD testSpace
      expression).M_globalCFE[s]? = some ((IntegrateVectorFaceIDLSAdapted.new mesh boundaryID
        quadratureBD testSpace expression).M_globalCFE[s]) :=
    List.getElem?_eq_getElem (by omega)
  refine ⟨_, hg, ?_⟩
  have hs2 : ([t0, t1, t2, t3] : List (List (List Int)))[s]? =
      some ((IntegrateVectorFaceIDLSAdapted.new mesh boundaryID quadratureBD testSpace
        expression).M_globalCFE[s]).M_refTangents := by
    rw [← h, IntegrateVectorFaceIDLSAdapted.refTangents, List.getElem?_map, hg]
    rfl
  obtain ⟨p0, p1, p2, p3⟩ := spansTangentPlane_slots
  have hcases : s = 0 ∨ s = 1 ∨ s = 2 ∨ s = 3 := by omega
  rcases hcases with h0 | h0 | h0 | h0 <;> subst h0 <;>
    simp only [List.getElem?_cons_zero, List.getElem?_cons_succ, Option.some.injEq] at hs2 <;>
    rw [← hs2]
  · exact p0
  · exact p1
  · exact p2
  · exact p3

/-- Witness of C11: a pass of `addTo` on the sample driver returns and the four pairs are
still those of the constructor. -/
theorem reference_tangents_witness :
    ∃ D1 v1, addTo sampleGeometry sampleDriver zeroVector = .ok (D1, v1) ∧
      D1.refTangents = sampleDriver.refTangents ∧
      sampleDriver.refTangents = [[[1, 0, 0], [0, 1, 0]], [[0, 0, 1], [1, 0, 0]],
        [[-1, 0, 1], [-1, 1, 0]], [[0, 1, 0], [0, 0, 1]]] := by
  obtain ⟨D1, v1, h1, _⟩ :=
    addTo_closed_form sampleGeometry sampleDriver zeroVector (by decide) (by decide)
  exact ⟨D1, v1, h1,
    (@reference_tangents ℤ _).2.2.2 sampleGeometry sampleDriver D1 zeroVector v1 h1,
    by decide⟩

theorem constructed_constructBody {R : Type} [Zero R] (D : IntegrateVectorFaceIDLSAdapted R) :
    Constructed (constructBody D) := by
  have hA : (constructBody D).M_qrAdapter = D.M_qrAdapter := rfl
  have hG : (constructBody D).M_globalCFE.map (fun g => g.M_quadratureRule) =
      (List.range 4).map (fun s => D.M_qrAdapter.adaptedBdQR s) := by
    simp [constructBody, List.range, List.range.loop, List.modify, List.modifyTailIdx,
      List.modifyHead, ETCurrentBDFE.setRefTangents, ETCurrentBDFE.new]
  have hT : (constructBody D).M_testCFE.map (fun t => t.M_quadratureRule) =
      (List.range 4).map (fun s => D.M_qrAdapter.adaptedBdQR s) := by
    simp [constructBody, List.range, List.range.loop, ETCurrentFE.new]
  have hlG : (constructBody D).M_globalCFE.length = 4 := by
    simpa using congrArg List.length hG
  have hlT : (constructBody D).M_testCFE.length = 4 := by
    simpa using congrArg List.length hT
  refine ⟨hlG, hlT, ?_, rfl, rfl, rfl⟩
  intro s hs
  have hg : (constructBody D).M_globalCFE[s]? = some ((constructBody D).M_globalCFE[s]) :=
    List.getElem?_eq_getElem (by omega)
  have ht : (constructBody D).M_testCFE[s]? = some ((constructBody D).M_testCFE[s]) :=
    List.getElem?_eq_getElem (by omega)
  have hr : ((List.range 4).map (fun s => D.M_qrAdapter.adaptedBdQR s))[s]? =
      some (D.M_qrAdapter.adaptedBdQR s) := by
    rw [List.getElem?_map, List.getElem?_range hs]
    rfl
  refine ⟨_, _, hg, ht, ?_, ?_⟩
  · have h1 := congrArg (fun l => l[s]?) hG
    simp only [List.getElem?_map, hg, hr, Option.map_some', Option.some.injEq] at h1
    rw [h1, hA]
  · have h1 := congrArg (fun l => l[s]?) hT
    simp only [List.getElem?_map, ht, hr, Option.map_some', Option.some.injEq] at h1
    rw [h1, hA]

/-- C12: the full-data constructor and the copy constructor both leave exactly four geometric
and four basis evaluators, the pair of each slot on the adapter's rule for that slot, and
the evaluation tree bound to the adapter's rule for slot 0 and to the new object's own
evaluators of slot 0 (in a copy not to those of the object copied from, which the copied
tree designated before the rebinding); the adapter is the one given, and mesh, marker ID,
test space and expression of a copy are those of the original. -/
theorem constructed_state {R : Type} [Zero R] :
    (∀ (mesh : Mesh) (boundaryID : Nat) (quadratureBD : LevelSetBDQRAdapter R)
        (testSpace : TestSpace) (expression : Expression R),
        Constructed (IntegrateVectorFaceIDLSAdapted.new mesh boundaryID quadratureBD testSpace
          expression) ∧
        (IntegrateVectorFaceIDLSAdapted.new mesh boundaryID quadratureBD testSpace
          expression).M_qrAdapter = quadratureBD) ∧
      (∀ integrator : IntegrateVectorFaceIDLSAdapted R,
        Constructed integrator.copy ∧
        integrator.copy.M_qrAdapter = integrator.M_qrAdapter ∧
        integrator.copy.M_mesh = integrator.M_mesh ∧
        integrator.copy.M_boundaryId = integrator.M_boundaryId ∧
        integrator.copy.M_testSpace = integrator.M_testSpace ∧
        integrator.copy.M_evaluation.M_expression = integrator.M_evaluation.M_expression ∧
        (Constructed integrator →
          integrator.M_evaluation.copy.M_globalCFE = .foreign 0 ∧
          integrator.M_evaluation.copy.M_testCFE = .foreign 0 ∧
          integrator.copy.M_evaluation.M_globalCFE ≠ integrator.M_evaluation.copy.M_globalCFE ∧
          integrator.copy.M_evaluation.M_testCFE ≠ integrator.M_evaluation.copy.M_testCFE)) := by
  refine ⟨fun mesh boundaryID quadratureBD testSpace expression =>
    ⟨constructed_constructBody _, rfl⟩, fun integrator =>
    ⟨constructed_constructBody _, rfl, rfl, rfl, rfl, rfl, ?_⟩⟩
  intro hc
  obtain ⟨_, _, _, _, hg, ht⟩ := hc
  have e1 : integrator.M_evaluation.copy.M_globalCFE = .foreign 0 := by
    simp [Evaluation.copy, hg, CFEPtr.copied]
  have e2 : integrator.M_evaluation.copy.M_testCFE = .foreign 0 := by
    simp [Evaluation.copy, ht, CFEPtr.copied]
  have o1 : integrator.copy.M_evaluation.M_globalCFE = .own 0 := rfl
  have o2 : integrator.copy.M_evaluation.M_testCFE = .own 0 := rfl
  refine ⟨e1, e2, ?_, ?_⟩
  · rw [o1, e1]
    intro h
    cases h
  · rw [o2, e2]
    intro h
    cases h

/-- Witness of C12: the sample driver is in the constructed state, and so is its copy, whose
tree no longer designates the evaluators of the sample driver. -/
theorem constructed_state_witness :
    sampleDriver.M_evaluation.M_globalCFE = .own 0 ∧
      sampleDriver.copy.M_evaluation.M_globalCFE ≠ sampleDriver.M_evaluation.copy.M_globalCFE ∧
      sampleDriver.copy.M_globalCFE.length = 4 :=
  ⟨by decide,
    (((@constructed_state ℤ _).2 sampleDriver).2.2.2.2.2.2
      ((@constructed_state ℤ _).1 sampleMesh 7 sampleAdapter sampleSpace sampleExpression).1).2.2.1,
    ((@constructed_state ℤ _).2 sampleDriver).1.1⟩

/-! ## Global rows -/

theorem processFace_rowIndices {R : Type} [Semiring R] (G : GeometricMap R)
    (D : IntegrateVectorFaceIDLSAdapted R) (v : Nat → R) (f : Face) (hD : WellFormed D)
    (hs : f.firstAdjacentElementPosition < 4) :
    ∃ D1 v1, processFace G (D, v) f = .ok (D1, v1) ∧
      (D1.M_elementalVector.pairs.map Prod.fst =
        (List.range (D.M_testSpace.field_dim * D.M_testSpace.nbDof)).map (fun k =>
          wrapUInt
            (D.M_testSpace.localToGlobalMap f.firstAdjacentElementIdentity
                (k % D.M_testSpace.nbDof) +
              k / D.M_testSpace.nbDof * D.M_testSpace.numTotalDof))) ∧
      ∀ b i, b < D.M_testSpace.field_dim → i < D.M_testSpace.nbDof →
        D1.M_elementalVector.M_rowIndices (i + b * D.M_testSpace.nbDof) =
          wrapUInt (D.M_testSpace.localToGlobalMap f.firstAdjacentElementIdentity i +
            b * D.M_testSpace.numTotalDof) := by
  obtain ⟨D1, v1, h1, hp⟩ := processFace_pairs G D v f hD hs
  have h2 := processFace_eq G D v f hD hs
  rw [h1] at h2
  simp only [Except.ok.injEq, Prod.mk.injEq] at h2
  refine ⟨D1, v1, h1, ?_, ?_⟩
  · rw [hp, Config.facePairs, List.map_map]
    rfl
  · intro b i hb hi
    obtain ⟨hlt, hd, hm⟩ := block_index hb hi
    have hlt2 : i + b * D.M_testSpace.nbDof <
        D.config.testSpace.field_dim * D.config.testSpace.nbDof := hlt
    rw [h2.1]
    simp only [faceState, Config.faceVector, if_pos hlt2, Config.pairAt, Config.globalRow]
    have e1 : D.config.testSpace = D.M_testSpace := rfl
    rw [e1, hd, hm]

theorem block_row_injective {fd m n : Nat} (lg : Nat → Nat)
    (hinj : ∀ i, i < m → ∀ j, j < m → lg i = lg j → i = j) (hlt : ∀ i, i < m → lg i < n)
    {b1 i1 b2 i2 : Nat} (hb1 : b1 < fd) (hi1 : i1 < m) (hb2 : b2 < fd) (hi2 : i2 < m)
    (h : lg i1 + b1 * n = lg i2 + b2 * n) : b1 = b2 ∧ i1 = i2 := by
  obtain ⟨_, hd1, hm1⟩ := block_index hb1 (hlt i1 hi1)
  obtain ⟨_, hd2, hm2⟩ := block_index hb2 (hlt i2 hi2)
  have hb : b1 = b2 := by rw [← hd1, ← hd2, h]
  have hl : lg i1 = lg i2 := by rw [← hm1, ← hm2, h]
  exact ⟨hb, hinj i1 hi1 i2 hi2 hl⟩

theorem wrapUInt_of_lt {n : Nat} (h : n < 2 ^ 32) : wrapUInt n = n :=
  Nat.mod_eq_of_lt h

/-- C13 (amended): when `localToGlobalMap (element, .)` is injective on the local dofs and
stays below `numTotalDof`, and no row `localToGlobalMap (element, i) + iblock * numTotalDof`
with `iblock < field_dim`, `i < nbDof` reaches `2 ^ 32`, the row `addTo` computes is that sum
itself, the rows are pairwise distinct over (iblock, i), the rows of block `iblock` lie in
`[iblock * numTotalDof, (iblock + 1) * numTotalDof)`, and processing a face of that element
succeeds and leaves exactly these rows in the elemental vector, no two local entries on the
same global row. -/
theorem block_rows_do_not_collide {R : Type} [Semiring R] (G : GeometricMap R)
    (D : IntegrateVectorFaceIDLSAdapted R) (v : Nat → R) (f : Face) (hD : WellFormed D)
    (hs : f.firstAdjacentElementPosition < 4)
    (hinj : ∀ i, i < D.M_testSpace.nbDof → ∀ j, j < D.M_testSpace.nbDof →
      D.M_testSpace.localToGlobalMap f.firstAdjacentElementIdentity i =
        D.M_testSpace.localToGlobalMap f.firstAdjacentElementIdentity j → i = j)
    (hlt : ∀ i, i < D.M_testSpace.nbDof →
      D.M_testSpace.localToGlobalMap f.firstAdjacentElementIdentity i <
        D.M_testSpace.numTotalDof)
    (hfit : ∀ b, b < D.M_testSpace.field_dim → ∀ i, i < D.M_testSpace.nbDof →
      D.M_testSpace.localToGlobalMap f.firstAdjacentElementIdentity i +
        b * D.M_testSpace.numTotalDof < 2 ^ 32) :
    (∀ b i, b < D.M_testSpace.field_dim → i < D.M_testSpace.nbDof →
        wrapUInt (D.M_testSpace.localToGlobalMap f.firstAdjacentElementIdentity i +
            b * D.M_testSpace.numTotalDof) =
          D.M_testSpace.localToGlobalMap f.firstAdjacentElementIdentity i +
            b * D.M_testSpace.numTotalDof) ∧
      (∀ b1 i1 b2 i2, b1 < D.M_testSpace.field_dim → i1 < D.M_testSpace.nbDof →
        b2 < D.M_testSpace.field_dim → i2 < D.M_testSpace.nbDof →
        wrapUInt (D.M_testSpace.localToGlobalMap f.firstAdjacentElementIdentity i1 +
            b1 * D.M_testSpace.numTotalDof) =
          wrapUInt (D.M_testSpace.localToGlobalMap f.firstAdjacentElementIdentity i2 +
            b2 * D.M_testSpace.numTotalDof) → b1 = b2 ∧ i1 = i2) ∧
      (∀ b i, b < D.M_testSpace.field_dim → i < D.M_testSpace.nbDof →
        b * D.M_testSpace.numTotalDof ≤
            wrapUInt (D.M_testSpace.localToGlobalMap f.firstAdjacentElementIdentity i +
              b * D.M_testSpace.numTotalDof) ∧
          wrapUInt (D.M_testSpace.localToGlobalMap f.firstAdjacentElementIdentity i +
              b * D.M_testSpace.numTotalDof) < (b + 1) * D.M_testSpace.numTotalDof) ∧
      ∃ D1 v1, processFace G (D, v) f = .ok (D1, v1) ∧
        (∀ b i, b < D.M_testSpace.field_dim → i < D.M_testSpace.nbDof →
          D1.M_elementalVector.M_rowIndices (i + b * D.M_testSpace.nbDof) =
            D.M_testSpace.localToGlobalMap f.firstAdjacentElementIdentity i +
              b * D.M_testSpace.numTotalDof) ∧
        (D1.M_elementalVector.pairs.map Prod.fst).Nodup := by
  have hW : ∀ b i, b < D.M_testSpace.field_dim → i < D.M_testSpace.nbDof →
      wrapUInt (D.M_testSpace.localToGlobalMap f.firstAdjacentElementIdentity i +
          b * D.M_testSpace.numTotalDof) =
        D.M_testSpace.localToGlobalMap f.firstAdjacentElementIdentity i +
          b * D.M_testSpace.numTotalDof :=
    fun b i hb hi => wrapUInt_of_lt (hfit b hb i hi)
  have hI : ∀ b1 i1 b2 i2, b1 < D.M_testSpace.field_dim → i1 < D.M_testSpace.nbDof →
      b2 < D.M_testSpace.field_dim → i2 < D.M_testSpace.nbDof →
      wrapUInt (D.M_testSpace.localToGlobalMap f.firstAdjacentElementIdentity i1 +
          b1 * D.M_testSpace.numTotalDof) =
        wrapUInt (D.M_testSpace.localToGlobalMap f.firstAdjacentElementIdentity i2 +
          b2 * D.M_testSpace.numTotalDof) → b1 = b2 ∧ i1 = i2 := by
    intro b1 i1 b2 i2 hb1 hi1 hb2 hi2 h
    rw [hW b1 i1 hb1 hi1, hW b2 i2 hb2 hi2] at h
    exact block_row_injective _ hinj hlt hb1 hi1 hb2 hi2 h
  refine ⟨hW, hI, ?_, ?_⟩
  · intro b i hb hi
    have h1 := hlt i hi
    rw [hW b i hb hi, Nat.succ_mul]
    omega
  · obtain ⟨D1, v1, h1, hrows, hidx⟩ := processFace_rowIndices G D v f hD hs
    refine ⟨D1, v1, h1, fun b i hb hi => (hidx b i hb hi).trans (hW b i hb hi), ?_⟩
    rw [hrows]
    apply List.Nodup.map_on _ (List.nodup_range _)
    intro k1 hk1 k2 hk2 hk
    have hk1' := List.mem_range.mp hk1
    have hk2' := List.mem_range.mp hk2
    have hpos : 0 < D.M_testSpace.nbDof := by
      by_contra hc
      have h0 : D.M_testSpace.nbDof = 0 := by omega
      rw [h0, Nat.mul_zero] at hk1'
      omega
    obtain ⟨hb, hi⟩ := hI (k1 / D.M_testSpace.nbDof) (k1 % D.M_testSpace.nbDof)
      (k2 / D.M_testSpace.nbDof) (k2 % D.M_testSpace.nbDof)
      (Nat.div_lt_of_lt_mul (by rw [Nat.mul_comm]; exact hk1')) (Nat.mod_lt _ hpos)
      (Nat.div_lt_of_lt_mul (by rw [Nat.mul_comm]; exact hk2')) (Nat.mod_lt _ hpos) hk
    rw [← Nat.div_add_mod k1 D.M_testSpace.nbDof, ← Nat.div_add_mod k2 D.M_testSpace.nbDof,
      hb, hi]

/-- Witness of C13 (amended): the face of element 1 at slot 2 of the sample mesh. -/
theorem block_rows_do_not_collide_witness :
    WellFormed sampleDriver ∧
      (∀ i, i < 3 → ∀ j, j < 3 → (1 + i) % 5 = (1 + j) % 5 → i = j) ∧
      (∀ i, i < 3 → (1 + i) % 5 < 5) ∧
      (∀ b, b < 2 → ∀ i, i < 3 → (1 + i) % 5 + b * 5 < 2 ^ 32) ∧
      ∃ D1 v1, processFace sampleGeometry (sampleDriver, zeroVector) ⟨7, 2, 1⟩ = .ok (D1, v1) ∧
        (D1.M_elementalVector.pairs.map Prod.fst).Nodup := by
  obtain ⟨_, _, _, D1, v1, h1, _, h3⟩ :=
    block_rows_do_not_collide sampleGeometry sampleDriver zeroVector ⟨7, 2, 1⟩ (by decide)
      (by decide) (by decide) (by decide) (by decide)
  exact ⟨by decide, by decide, by decide, by decide, D1, v1, h1, h3⟩

/-- C13 as stated fails: over two blocks of `2 ^ 32 - 1` global dofs, with local dof `i` on
global dof `i`, the map is injective and below `numTotalDof`, yet the rows `addTo` assigns
for a face are 0, 1, 2 for block 0 and 4294967295, 0, 1 for block 1: local entries (1, 1)
and (0, 0) share global row 0, which is outside the range of block 1. -/
theorem block_rows_collide_on_overflow :
    WellFormed overflowDriver ∧
      (∀ i, i < overflowDriver.M_testSpace.nbDof → ∀ j, j < overflowDriver.M_testSpace.nbDof →
        overflowDriver.M_testSpace.localToGlobalMap 1 i =
          overflowDriver.M_testSpace.localToGlobalMap 1 j → i = j) ∧
      (∀ i, i < overflowDriver.M_testSpace.nbDof →
        overflowDriver.M_testSpace.localToGlobalMap 1 i <
          overflowDriver.M_testSpace.numTotalDof) ∧
      ∃ D1 v1, processFace sampleGeometry (overflowDriver, zeroVector) ⟨7, 2, 1⟩ = .ok (D1, v1) ∧
        D1.M_elementalVector.pairs.map Prod.fst = [0, 1, 2, 4294967295, 0, 1] ∧
        D1.M_elementalVector.M_rowIndices (1 + 1 * overflowDriver.M_testSpace.nbDof) =
          D1.M_elementalVector.M_rowIndices (0 + 0 * overflowDriver.M_testSpace.nbDof) ∧
        ¬ (1 * overflowDriver.M_testSpace.numTotalDof ≤
          D1.M_elementalVector.M_rowIndices (1 + 1 * overflowDriver.M_testSpace.nbDof)) ∧
        ¬ (D1.M_elementalVector.pairs.map Prod.fst).Nodup := by
  obtain ⟨D1, v1, h1, hrows, hidx⟩ :=
    processFace_rowIndices sampleGeometry overflowDriver zeroVector ⟨7, 2, 1⟩ (by decide)
      (by decide)
  have hlist : D1.M_elementalVector.pairs.map Prod.fst = [0, 1, 2, 4294967295, 0, 1] := by
    rw [hrows]
    decide
  have h11 := hidx 1 1 (by decide) (by decide)
  have h00 := hidx 0 0 (by decide) (by decide)
  have e11 : wrapUInt (overflowDriver.M_testSpace.localToGlobalMap 1 1 +
      1 * overflowDriver.M_testSpace.numTotalDof) = 0 := by decide
  have e00 : wrapUInt (overflowDriver.M_testSpace.localToGlobalMap 1 0 +
      0 * overflowDriver.M_testSpace.numTotalDof) = 0 := by decide
  refine ⟨by decide, by decide, by decide, D1, v1, h1, hlist, ?_, ?_, ?_⟩
  · rw [h11, h00]
    exact e11.trans e00.symm
  · rw [h11]
    decide
  · rw [hlist]
    decide

end LifeV
